import Mathlib

/-!
Shallow embedding of the event-sourced core of the `aei-framework` repository:
the graph aggregate (`Network`), the adaptive-memory aggregate
(`AdaptiveMemory`), their event vocabularies, an abstraction of the
append-only event store, and the command handlers, together with theorems
settling the specification claims.

Identifiers (`uuid::Uuid`) are modelled as natural numbers and `f64` values
as exact rationals; the injected randomness capability is modelled by
explicit oracle records supplying the values the handlers would draw.
-/

namespace AEI

/-- Opaque unique identifier, modelling `uuid::Uuid`. -/
abbrev Uuid := Nat

/-- Activation functions available for neurons (`src/domain/activation.rs`). -/
inductive Activation where
  | Identity
  | Sigmoid
  | ReLU
  | Tanh
deriving DecidableEq, Repr

/-- Modelled from the spec: the file `src/domain/neuron.rs` is declared by
`src/domain/mod.rs` but absent from the sources.  Per the spec a node carries
an opaque unique id, an activation-kind tag and a derived curiosity score
defaulting to 0; `Neuron::with_id` is the constructor used by
`Network::apply`. -/
structure Neuron where
  id : Uuid
  activation : Activation
  curiosity_score : ℚ
deriving DecidableEq, Repr

/-- Constructor used by `Network::apply`; curiosity score defaults to 0. -/
def Neuron.with_id (id : Uuid) (activation : Activation) : Neuron :=
  { id := id, activation := activation, curiosity_score := 0 }

/-- Modelled from the spec: the file `src/domain/synapse.rs` is declared by
`src/domain/mod.rs` but absent from the sources.  Per the spec an edge carries
an opaque unique id, an ordered pair of node ids `(from, to)`, a weight and a
curiosity score defaulting to 0. `from` is a Lean keyword, hence `from_`. -/
structure Synapse where
  id : Uuid
  from_ : Uuid
  to_ : Uuid
  weight : ℚ
  curiosity_score : ℚ
deriving DecidableEq, Repr

/-- Constructor used by `Network::apply`; curiosity score defaults to 0. -/
def Synapse.with_id (id from_ to_ : Uuid) (weight : ℚ) : Synapse :=
  { id := id, from_ := from_, to_ := to_, weight := weight, curiosity_score := 0 }

/-! Event payload structs from `src/domain/events.rs`. -/

/-- Payload of `Event::RandomNeuronAdded`. -/
structure RandomNeuronAdded where
  neuron_id : Uuid
  activation : Activation
deriving DecidableEq, Repr

/-- Payload of `Event::RandomNeuronRemoved`. -/
structure RandomNeuronRemoved where
  neuron_id : Uuid
deriving DecidableEq, Repr

/-- Payload of `Event::NeuronAdded`. -/
structure NeuronAdded where
  neuron_id : Uuid
  activation : Activation
deriving DecidableEq, Repr

/-- Payload of `Event::NeuronRemoved`. -/
structure NeuronRemoved where
  neuron_id : Uuid
deriving DecidableEq, Repr

/-- Payload of `Event::RandomSynapseAdded`. -/
structure RandomSynapseAdded where
  synapse_id : Uuid
  from_ : Uuid
  to_ : Uuid
  weight : ℚ
deriving DecidableEq, Repr

/-- Payload of `Event::RandomSynapseRemoved`. -/
structure RandomSynapseRemoved where
  synapse_id : Uuid
deriving DecidableEq, Repr

/-- Payload of `Event::SynapseWeightMutated`. -/
structure SynapseWeightMutated where
  synapse_id : Uuid
  old_weight : ℚ
  new_weight : ℚ
deriving DecidableEq, Repr

/-- Payload of `Event::SynapseWeightSet`. -/
structure SynapseWeightSet where
  synapse_id : Uuid
  old_weight : ℚ
  new_weight : ℚ
deriving DecidableEq, Repr

/-- Payload of `Event::NeuronActivationMutated`. -/
structure NeuronActivationMutated where
  neuron_id : Uuid
  old_activation : Activation
  new_activation : Activation
deriving DecidableEq, Repr

/-- Payload of `Event::CuriosityScoreUpdated`. -/
structure CuriosityScoreUpdated where
  target_id : Uuid
  old_score : ℚ
  new_score : ℚ
deriving DecidableEq, Repr

/-- The closed union of graph domain events (`enum Event` in
`src/domain/events.rs`, twelve variants). -/
inductive Event where
  | RandomNeuronAdded (e : RandomNeuronAdded)
  | RandomNeuronRemoved (e : RandomNeuronRemoved)
  | NeuronAdded (e : NeuronAdded)
  | NeuronRemoved (e : NeuronRemoved)
  | SynapseCreated (id from_ to_ : Uuid) (weight : ℚ)
  | SynapseRemoved (id : Uuid)
  | RandomSynapseAdded (e : RandomSynapseAdded)
  | RandomSynapseRemoved (e : RandomSynapseRemoved)
  | SynapseWeightMutated (e : SynapseWeightMutated)
  | SynapseWeightSet (e : SynapseWeightSet)
  | NeuronActivationMutated (e : NeuronActivationMutated)
  | CuriosityScoreUpdated (e : CuriosityScoreUpdated)
deriving DecidableEq, Repr

/-- Aggregate root containing all neurons and synapses
(`struct Network` in `src/domain/network.rs`).  The source stores both
collections as `HashMap<Uuid, _>`; a `HashMap` holds at most one entry per
key and has no observable iteration order, so each map is modelled as a list
of values keyed by their `id` field, with `HashMap::insert` replacing any
entry carrying the same key. -/
structure Network where
  neurons : List Neuron
  synapses : List Synapse
deriving DecidableEq, Repr

/-- The empty network (`Network::default`). -/
def Network.default : Network := { neurons := [], synapses := [] }

/-- `HashMap::insert` on the neuron map: at most one entry per key. -/
def insert_neuron (n : Neuron) (l : List Neuron) : List Neuron :=
  l.filter (fun m => m.id != n.id) ++ [n]

/-- `HashMap::insert` on the synapse map: at most one entry per key. -/
def insert_synapse (s : Synapse) (l : List Synapse) : List Synapse :=
  l.filter (fun t => t.id != s.id) ++ [s]

/-- `Network::apply_random_neuron_added`. -/
def Network.apply_random_neuron_added (net : Network) (e : RandomNeuronAdded) : Network :=
  { net with neurons := insert_neuron (Neuron.with_id e.neuron_id e.activation) net.neurons }

/-- `Network::apply_random_neuron_removed`: removes the neuron and retains
only synapses touching neither endpoint. -/
def Network.apply_random_neuron_removed (net : Network) (e : RandomNeuronRemoved) : Network :=
  { neurons := net.neurons.filter (fun n => n.id != e.neuron_id),
    synapses := net.synapses.filter (fun s => s.from_ != e.neuron_id && s.to_ != e.neuron_id) }

/-- `Network::apply_neuron_added`. -/
def Network.apply_neuron_added (net : Network) (e : NeuronAdded) : Network :=
  { net with neurons := insert_neuron (Neuron.with_id e.neuron_id e.activation) net.neurons }

/-- `Network::apply_neuron_removed`: removes the neuron and retains only
synapses touching neither endpoint. -/
def Network.apply_neuron_removed (net : Network) (e : NeuronRemoved) : Network :=
  { neurons := net.neurons.filter (fun n => n.id != e.neuron_id),
    synapses := net.synapses.filter (fun s => s.from_ != e.neuron_id && s.to_ != e.neuron_id) }

/-- `Network::apply_random_synapse_added`: inserts only if both endpoints
exist, the edge is not a self-loop, and no synapse with the same ordered
`(from, to)` pair exists. -/
def Network.apply_random_synapse_added (net : Network) (e : RandomSynapseAdded) : Network :=
  if net.neurons.any (fun n => n.id == e.from_) && net.neurons.any (fun n => n.id == e.to_)
      && e.from_ != e.to_
      && !(net.synapses.any (fun s => s.from_ == e.from_ && s.to_ == e.to_)) then
    { net with
      synapses := insert_synapse (Synapse.with_id e.synapse_id e.from_ e.to_ e.weight) net.synapses }
  else net

/-- `Network::apply_random_synapse_removed`. -/
def Network.apply_random_synapse_removed (net : Network) (e : RandomSynapseRemoved) : Network :=
  { net with synapses := net.synapses.filter (fun s => s.id != e.synapse_id) }

/-- `Network::apply_synapse_weight_mutated`: `get_mut` updates the entry with
the given key (keys are unique in the source map, so updating every entry
with that key coincides with updating the single one). -/
def Network.apply_synapse_weight_mutated (net : Network) (e : SynapseWeightMutated) : Network :=
  { net with
    synapses := net.synapses.map (fun s =>
      if s.id == e.synapse_id then { s with weight := e.new_weight } else s) }

/-- `Network::apply_neuron_activation_mutated`. -/
def Network.apply_neuron_activation_mutated (net : Network) (e : NeuronActivationMutated) :
    Network :=
  { net with
    neurons := net.neurons.map (fun n =>
      if n.id == e.neuron_id then { n with activation := e.new_activation } else n) }

/-- `Network::apply_curiosity_score_updated`: updates the neuron if present,
else the synapse if present, else a no-op. -/
def Network.apply_curiosity_score_updated (net : Network) (e : CuriosityScoreUpdated) : Network :=
  if net.neurons.any (fun n => n.id == e.target_id) then
    { net with
      neurons := net.neurons.map (fun n =>
        if n.id == e.target_id then { n with curiosity_score := e.new_score } else n) }
  else if net.synapses.any (fun s => s.id == e.target_id) then
    { net with
      synapses := net.synapses.map (fun s =>
        if s.id == e.target_id then { s with curiosity_score := e.new_score } else s) }
  else net

/-- `Network::apply` (`src/domain/network.rs`, lines 37-81).  The source match
lists arms for eleven of the twelve `Event` variants and has no arm for
`Event::SynapseWeightSet` (the match is not exhaustive as written); that
variant is therefore modelled as leaving the state unchanged. -/
def Network.apply (net : Network) (event : Event) : Network :=
  match event with
  | .RandomNeuronAdded e => net.apply_random_neuron_added e
  | .RandomNeuronRemoved e => net.apply_random_neuron_removed e
  | .NeuronAdded e => net.apply_neuron_added e
  | .NeuronRemoved e => net.apply_neuron_removed e
  | .SynapseCreated id from_ to_ weight =>
    if net.neurons.any (fun n => n.id == from_) && net.neurons.any (fun n => n.id == to_) then
      { net with synapses := insert_synapse (Synapse.with_id id from_ to_ weight) net.synapses }
    else net
  | .SynapseRemoved id =>
    { net with synapses := net.synapses.filter (fun s => s.id != id) }
  | .RandomSynapseAdded e => net.apply_random_synapse_added e
  | .RandomSynapseRemoved e => net.apply_random_synapse_removed e
  | .SynapseWeightMutated e => net.apply_synapse_weight_mutated e
  | .SynapseWeightSet _ => net
  | .NeuronActivationMutated e => net.apply_neuron_activation_mutated e
  | .CuriosityScoreUpdated e => net.apply_curiosity_score_updated e

/-- `Network::hydrate`: fold `apply` over the events from the empty state. -/
def Network.hydrate (events : List Event) : Network :=
  events.foldl Network.apply Network.default

/-! The adaptive-memory aggregate (`src/domain/memory/mod.rs`). -/

/-- A memorized experience with an associated usefulness score
(`struct MemoryEntry`).  The `chrono` timestamp and the `serde_json::Value`
payload are opaque to the core and modelled as a natural number and a
string. -/
structure MemoryEntry where
  id : Uuid
  timestamp : Nat
  event_type : String
  payload : String
  score : ℚ
deriving DecidableEq, Repr

/-- Payload of `MemoryEvent::MemoryEntryAdded`. -/
structure MemoryEntryAdded where
  entry : MemoryEntry
deriving DecidableEq, Repr

/-- Payload of `MemoryEvent::MemoryEntryRemoved`. -/
structure MemoryEntryRemoved where
  entry_id : Uuid
deriving DecidableEq, Repr

/-- Payload of `MemoryEvent::MemoryPruned`. -/
structure MemoryPruned where
  removed_entries : List Uuid
deriving DecidableEq, Repr

/-- Payload of `MemoryEvent::MemoryScoreUpdated`. -/
structure MemoryScoreUpdated where
  entry_id : Uuid
  old_score : ℚ
  new_score : ℚ
deriving DecidableEq, Repr

/-- Domain events for the adaptive memory (`enum MemoryEvent`). -/
inductive MemoryEvent where
  | MemoryEntryAdded (e : MemoryEntryAdded)
  | MemoryEntryRemoved (e : MemoryEntryRemoved)
  | MemoryPruned (e : MemoryPruned)
  | MemoryScoreUpdated (e : MemoryScoreUpdated)
deriving DecidableEq, Repr

/-- Aggregate maintaining a bounded buffer of memory entries
(`struct AdaptiveMemory`); entries are ordered by insertion time
(`Vec<MemoryEntry>`). -/
structure AdaptiveMemory where
  entries : List MemoryEntry
  max_size : Nat
deriving DecidableEq, Repr

/-- `AdaptiveMemory::new`. -/
def AdaptiveMemory.new (max_size : Nat) : AdaptiveMemory :=
  { entries := [], max_size := max_size }

/-- `iter_mut().find(..)` then update in place: replaces the score of the
first entry with the given id, a no-op if absent
(`AdaptiveMemory::apply_score_updated`). -/
def update_score_first (entry_id : Uuid) (new_score : ℚ) : List MemoryEntry → List MemoryEntry
  | [] => []
  | e :: rest =>
    if e.id == entry_id then { e with score := new_score } :: rest
    else e :: update_score_first entry_id new_score rest

/-- `AdaptiveMemory::apply`: add appends, remove and prune filter by id,
score-update replaces the score of the matching entry. -/
def AdaptiveMemory.apply (m : AdaptiveMemory) (event : MemoryEvent) : AdaptiveMemory :=
  match event with
  | .MemoryEntryAdded e => { m with entries := m.entries ++ [e.entry] }
  | .MemoryEntryRemoved e => { m with entries := m.entries.filter (fun x => x.id != e.entry_id) }
  | .MemoryPruned e =>
    { m with entries := m.entries.filter (fun x => !(e.removed_entries.contains x.id)) }
  | .MemoryScoreUpdated e => { m with entries := update_score_first e.entry_id e.new_score m.entries }

/-- `AdaptiveMemory::hydrate`. -/
def AdaptiveMemory.hydrate (max_size : Nat) (events : List MemoryEvent) : AdaptiveMemory :=
  events.foldl AdaptiveMemory.apply (AdaptiveMemory.new max_size)

/-! The append-only event store.  `EventStore` and `MemoryEventStore`
(`src/infrastructure/`) are traits whose implementations persist each event
at the end of a total order or fail leaving the log unchanged; the in-memory
model below carries the persisted log plus a fault threshold: appends fail
once the log holds `fail_from` records, which models an arbitrary
persistence fault (a store that never fails has `fail_from = none`). -/
structure Store (ε : Type) where
  log : List ε
  fail_from : Option Nat
deriving DecidableEq, Repr

/-- `EventStore::append`: persists one record in total order, or fails with
a storage error leaving the log unchanged. -/
def Store.append {ε : Type} (s : Store ε) (e : ε) : Option (Store ε) :=
  match s.fail_from with
  | none => some { s with log := s.log ++ [e] }
  | some k => if s.log.length < k then some { s with log := s.log ++ [e] } else none

/-- A store with no injected fault: every append succeeds. -/
def Store.ok {ε : Type} (s : Store ε) : Prop := s.fail_from = none

/-! Command handlers over the graph aggregate (`src/application/`).
Each handler owns a store and the hydrated network; `handle` validates,
derives events, persists each event before applying it, and returns the
primary affected id or a structured error. -/

/-- `SetSynapseWeightCommand` (`src/application/set_synapse_weight.rs`). -/
structure SetSynapseWeightCommand where
  synapse_id : Uuid
  new_weight : ℚ
deriving DecidableEq, Repr

/-- `enum SetSynapseWeightError`. -/
inductive SetSynapseWeightError where
  | SynapseNotFound
  | StorageError
deriving DecidableEq, Repr

/-- `SetSynapseWeightHandler`: store plus hydrated network. -/
structure SetSynapseWeightHandler where
  store : Store Event
  network : Network
deriving DecidableEq, Repr

/-- `SetSynapseWeightHandler::handle`: looks up the old weight (error
`SynapseNotFound` if absent), derives a `SynapseWeightSet` event, appends it
(error `StorageError` on failure) and then applies it to the network. -/
def SetSynapseWeightHandler.handle (h : SetSynapseWeightHandler)
    (cmd : SetSynapseWeightCommand) :
    Except SetSynapseWeightError Unit × SetSynapseWeightHandler :=
  match h.network.synapses.find? (fun s => s.id == cmd.synapse_id) with
  | none => (.error .SynapseNotFound, h)
  | some s =>
    let event := Event.SynapseWeightSet
      { synapse_id := cmd.synapse_id, old_weight := s.weight, new_weight := cmd.new_weight }
    match h.store.append event with
    | none => (.error .StorageError, h)
    | some store' => (.ok (), { store := store', network := h.network.apply event })

/-- `enum AddRandomSynapseError`. -/
inductive AddRandomSynapseError where
  | NotEnoughNeurons
  | NoAvailableConnection
  | StorageError
deriving DecidableEq, Repr

/-- `AddRandomSynapseHandler`: store, hydrated network and injected
randomness. -/
structure AddRandomSynapseHandler where
  store : Store Event
  network : Network
deriving DecidableEq, Repr

/-- The values the add-random-synapse handler draws from its injected
randomness source: the index of the uniformly chosen candidate pair, the
weight sampled from `[-1, 1]`, and the fresh `Uuid` for the synapse. -/
structure SynapseOracle where
  choice : Nat
  weight : ℚ
  synapse_id : Uuid
deriving DecidableEq, Repr

/-- The candidate list built by the nested loops of
`AddRandomSynapseHandler::handle`: every ordered pair of distinct existing
neuron ids not already connected in that direction, in enumeration order. -/
def candidate_pairs (net : Network) : List (Uuid × Uuid) :=
  (net.neurons.map (·.id)).flatMap (fun f =>
    ((net.neurons.map (·.id)).filter (fun t =>
      f != t && !(net.synapses.any (fun s => s.from_ == f && s.to_ == t)))).map (fun t => (f, t)))

/-- `AddRandomSynapseHandler::handle` (`src/application/add_random_synapse.rs`,
lines 46-87): errors `NotEnoughNeurons` below two neurons and
`NoAvailableConnection` on an empty candidate set (`SliceRandom::choose`
returns `None` exactly on an empty slice, else a uniformly chosen element,
modelled by indexing at `choice % length`); otherwise appends and applies a
`RandomSynapseAdded` event. -/
def AddRandomSynapseHandler.handle (h : AddRandomSynapseHandler) (o : SynapseOracle) :
    Except AddRandomSynapseError Uuid × AddRandomSynapseHandler :=
  let neuron_ids := h.network.neurons.map (·.id)
  if neuron_ids.length < 2 then (.error .NotEnoughNeurons, h)
  else
    let pairs := candidate_pairs h.network
    match pairs[o.choice % pairs.length]? with
    | none => (.error .NoAvailableConnection, h)
    | some (f, t) =>
      let event := Event.RandomSynapseAdded
        { synapse_id := o.synapse_id, from_ := f, to_ := t, weight := o.weight }
      match h.store.append event with
      | none => (.error .StorageError, h)
      | some store' => (.ok o.synapse_id, { store := store', network := h.network.apply event })

/-- `enum AddRandomNeuronError`. -/
inductive AddRandomNeuronError where
  | StorageError
deriving DecidableEq, Repr

/-- `AddRandomNeuronHandler`. -/
structure AddRandomNeuronHandler where
  store : Store Event
  network : Network
deriving DecidableEq, Repr

/-- The values the add-random-neuron handler draws from its injected
randomness source: the index of the uniformly chosen activation, the fresh
neuron `Uuid`, the value driving `gen_range(1..=N)`, the shuffled candidate
list, and per-attached-edge direction coins, weights in `[-1, 1]` and fresh
synapse `Uuid`s. -/
structure NeuronOracle where
  activation_choice : Nat
  neuron_id : Uuid
  count_choice : Nat
  shuffled : List Uuid
  dir : Nat → Bool
  edge_weight : Nat → ℚ
  synapse_ids : Nat → Uuid

/-- The edge-attaching loop of `AddRandomNeuronHandler::handle`: for each
target, a fair coin decides direction relative to the new neuron; each
`SynapseCreated` event is appended (aborting with `StorageError` on failure)
and then applied. -/
def attach_loop (o : NeuronOracle) (neuron_id : Uuid) :
    List Uuid → Nat → Store Event × Network →
    Except AddRandomNeuronError Uuid × Store Event × Network
  | [], _, st => (.ok neuron_id, st)
  | target :: rest, i, (store, net) =>
    let weight := o.edge_weight i
    let syn_id := o.synapse_ids i
    let event :=
      if o.dir i then Event.SynapseCreated syn_id target neuron_id weight
      else Event.SynapseCreated syn_id neuron_id target weight
    match store.append event with
    | none => (.error .StorageError, store, net)
    | some store' => attach_loop o neuron_id rest (i + 1) (store', net.apply event)

/-- `AddRandomNeuronHandler::handle` (`src/application/add_random_neuron.rs`,
lines 43-100): uniformly picks one of the four activations, appends and
applies a `RandomNeuronAdded` event, then, if other neurons exist, shuffles
them, draws `count` in `1..=N` and attaches that many random edges. -/
def AddRandomNeuronHandler.handle (h : AddRandomNeuronHandler) (o : NeuronOracle) :
    Except AddRandomNeuronError Uuid × AddRandomNeuronHandler :=
  let activations := [Activation.Identity, Activation.Sigmoid, Activation.ReLU, Activation.Tanh]
  let activation := activations.getD (o.activation_choice % activations.length) Activation.Identity
  let event := Event.RandomNeuronAdded { neuron_id := o.neuron_id, activation := activation }
  match h.store.append event with
  | none => (.error .StorageError, h)
  | some store1 =>
    let net1 := h.network.apply event
    let others := (net1.neurons.map (·.id)).filter (fun id => id != o.neuron_id)
    if others.isEmpty then (.ok o.neuron_id, { store := store1, network := net1 })
    else
      let count := 1 + o.count_choice % others.length
      let r := attach_loop o o.neuron_id (o.shuffled.take count) 0 (store1, net1)
      (r.1, { store := r.2.1, network := r.2.2 })

/-- `MutateRandomSynapseWeightCommand`. -/
structure MutateRandomSynapseWeightCommand where
  std_dev : ℚ
deriving DecidableEq, Repr

/-- `enum MutateRandomSynapseWeightError`. -/
inductive MutateRandomSynapseWeightError where
  | NoSynapseAvailable
  | InvalidStdDev
  | StorageError
deriving DecidableEq, Repr

/-- `MutateRandomSynapseWeightHandler`. -/
structure MutateRandomSynapseWeightHandler where
  store : Store Event
  network : Network
deriving DecidableEq, Repr

/-- The values the mutate-random-synapse-weight handler draws from its
injected randomness source: the index of the uniformly chosen synapse and
the Gaussian noise sample. -/
structure MutateOracle where
  choice : Nat
  noise : ℚ
deriving DecidableEq, Repr

/-- `MutateRandomSynapseWeightHandler::handle`
(`src/application/mutate_random_synapse_weight.rs`, lines 77-111): errors
`InvalidStdDev` for a non-positive standard deviation, `NoSynapseAvailable`
when no synapse exists; otherwise perturbs a uniformly chosen synapse's
weight by additive Gaussian noise, appending then applying a
`SynapseWeightMutated` event. -/
def MutateRandomSynapseWeightHandler.handle (h : MutateRandomSynapseWeightHandler)
    (o : MutateOracle) (cmd : MutateRandomSynapseWeightCommand) :
    Except MutateRandomSynapseWeightError Uuid × MutateRandomSynapseWeightHandler :=
  if cmd.std_dev ≤ 0 then (.error .InvalidStdDev, h)
  else
    let ids := h.network.synapses.map (·.id)
    if ids.isEmpty then (.error .NoSynapseAvailable, h)
    else
      let synapse_id := ids.getD (o.choice % ids.length) 0
      let old_weight :=
        ((h.network.synapses.find? (fun s => s.id == synapse_id)).map (·.weight)).getD 0
      let new_weight := old_weight + o.noise
      let event := Event.SynapseWeightMutated
        { synapse_id := synapse_id, old_weight := old_weight, new_weight := new_weight }
      match h.store.append event with
      | none => (.error .StorageError, h)
      | some store' => (.ok synapse_id, { store := store', network := h.network.apply event })

/-! The curiosity-score recalculation handler
(`src/application/recalculate_curiosity_score.rs`). -/

/-- `enum CuriosityScope`. -/
inductive CuriosityScope where
  | Neuron
  | Synapse
  | All
deriving DecidableEq, Repr

/-- `RecalculateCuriosityScoreCommand`. -/
structure RecalculateCuriosityScoreCommand where
  target_ids : List Uuid
  scope : CuriosityScope
deriving DecidableEq, Repr

/-- `RecalculateCuriosityScoreHandler`. -/
structure RecalculateCuriosityScoreHandler where
  store : Store Event
  network : Network
deriving DecidableEq, Repr

/-- `f64::EPSILON`, the machine epsilon `2^-52`, as an exact rational. -/
def f64_epsilon : ℚ := 1 / 2 ^ 52

/-- `RecalculateCuriosityScoreHandler::touches` (lines 95-111): whether an
event references the id as its subject or as an edge endpoint.  The source
match lists arms for eleven of the twelve `Event` variants and has no arm
for `Event::SynapseWeightSet` (the match is not exhaustive as written); that
variant is therefore modelled as not counting. -/
def touches (event : Event) (id : Uuid) : Bool :=
  match event with
  | .RandomNeuronAdded e => e.neuron_id == id
  | .RandomNeuronRemoved e => e.neuron_id == id
  | .NeuronAdded e => e.neuron_id == id
  | .NeuronRemoved e => e.neuron_id == id
  | .SynapseCreated sid from_ to_ _ => sid == id || from_ == id || to_ == id
  | .SynapseRemoved sid => sid == id
  | .RandomSynapseAdded e => e.synapse_id == id || e.from_ == id || e.to_ == id
  | .RandomSynapseRemoved e => e.synapse_id == id
  | .SynapseWeightMutated e => e.synapse_id == id
  | .SynapseWeightSet _ => false
  | .NeuronActivationMutated e => e.neuron_id == id
  | .CuriosityScoreUpdated e => e.target_id == id

/-- `RecalculateCuriosityScoreHandler::compute_score` (lines 89-93):
`1 / (1 + occurrences)` over the full history. -/
def compute_score (events : List Event) (id : Uuid) : ℚ :=
  1 / (1 + ((events.filter (fun e => touches e id)).length : ℚ))

/-- `RecalculateCuriosityScoreHandler::resolve_targets` (lines 75-87): the
caller-supplied ids for the `Neuron` and `Synapse` scopes, every current
neuron and synapse id for `All`. -/
def resolve_targets (h : RecalculateCuriosityScoreHandler)
    (cmd : RecalculateCuriosityScoreCommand) : List Uuid :=
  match cmd.scope with
  | .Neuron => cmd.target_ids
  | .Synapse => cmd.target_ids
  | .All => h.network.neurons.map (·.id) ++ h.network.synapses.map (·.id)

/-- The stored score looked up by the recalculation loop (the
`.map(..).or_else(..).unwrap_or_default()` chain of lines 53-59): the
neuron's score if the id names a neuron, else the synapse's score if it
names a synapse, else the `f64` default `0.0`. -/
def stored_score (net : Network) (id : Uuid) : ℚ :=
  match net.neurons.find? (fun n => n.id == id) with
  | some n => n.curiosity_score
  | none =>
    match net.synapses.find? (fun s => s.id == id) with
    | some s => s.curiosity_score
    | none => 0

/-- The per-target loop of `RecalculateCuriosityScoreHandler::handle`
(lines 52-71): the stored score defaults to `0.0` for an unknown id; a
`CuriosityScoreUpdated` event is appended (propagating a storage failure)
and applied only when the recomputed score differs from the stored one by
more than `f64::EPSILON`. -/
def recalc_loop (events : List Event) :
    List Uuid → RecalculateCuriosityScoreHandler →
    Except Unit (List Event) × RecalculateCuriosityScoreHandler
  | [], h => (.ok [], h)
  | id :: rest, h =>
    let old : ℚ := stored_score h.network id
    let new_score := compute_score events id
    if |new_score - old| > f64_epsilon then
      let event := Event.CuriosityScoreUpdated
        { target_id := id, old_score := old, new_score := new_score }
      match h.store.append event with
      | none => (.error (), h)
      | some store' =>
        let r := recalc_loop events rest { store := store', network := h.network.apply event }
        ((match r.1 with
          | .ok emitted => .ok (event :: emitted)
          | .error e => .error e), r.2)
    else recalc_loop events rest h

/-- `RecalculateCuriosityScoreHandler::handle` (lines 45-73): loads the full
history from its own store, resolves the targets, and runs the per-target
loop, returning the emitted events. -/
def RecalculateCuriosityScoreHandler.handle (h : RecalculateCuriosityScoreHandler)
    (cmd : RecalculateCuriosityScoreCommand) :
    Except Unit (List Event) × RecalculateCuriosityScoreHandler :=
  let events := h.store.log
  let targets := resolve_targets h cmd
  recalc_loop events targets h

/-! Memory command handlers (`src/application/memory/handlers.rs`). -/

/-- `AddMemoryEntryCommand`. -/
structure AddMemoryEntryCommand where
  event_type : String
  payload : String
  score : ℚ
deriving DecidableEq, Repr

/-- `enum AddMemoryEntryError`. -/
inductive AddMemoryEntryError where
  | InvalidScore
  | StorageError
deriving DecidableEq, Repr

/-- `AddMemoryEntryHandler`. -/
structure AddMemoryEntryHandler where
  store : Store MemoryEvent
  memory : AdaptiveMemory
deriving DecidableEq, Repr

/-- The effectful values the add handler obtains from its environment: the
fresh entry `Uuid` (`Uuid::new_v4`) and the timestamp (`Utc::now`). -/
structure AddEntryOracle where
  entry_id : Uuid
  timestamp : Nat
deriving DecidableEq, Repr

/-- The stable ascending sort by score used by both prune passes
(`Vec::sort_by` with `partial_cmp` on scores is a stable ascending sort,
modelled by `List.mergeSort`, which is also stable). -/
def sort_by_score (l : List MemoryEntry) : List MemoryEntry :=
  l.mergeSort (fun a b => decide (a.score ≤ b.score))

/-- `AddMemoryEntryHandler::prune_lowest` (lines 65-76): removes the ids of
the first `excess` entries of the stable ascending score sort, via a
`MemoryPruned` event, appended then applied. -/
def AddMemoryEntryHandler.prune_lowest (h : AddMemoryEntryHandler) :
    Option AddMemoryEntryHandler :=
  let excess := h.memory.entries.length - h.memory.max_size
  let removed := ((sort_by_score h.memory.entries).take excess).map (·.id)
  let event := MemoryEvent.MemoryPruned { removed_entries := removed }
  match h.store.append event with
  | none => none
  | some store' => some { store := store', memory := h.memory.apply event }

/-- `AddMemoryEntryHandler::handle` (lines 40-63): rejects scores outside
`[0, 1]`, appends then applies a `MemoryEntryAdded` event, and triggers the
synchronous prune pass when the capacity is exceeded. -/
def AddMemoryEntryHandler.handle (h : AddMemoryEntryHandler) (o : AddEntryOracle)
    (cmd : AddMemoryEntryCommand) : Except AddMemoryEntryError Uuid × AddMemoryEntryHandler :=
  if ¬(0 ≤ cmd.score ∧ cmd.score ≤ 1) then (.error .InvalidScore, h)
  else
    let entry : MemoryEntry :=
      { id := o.entry_id, timestamp := o.timestamp, event_type := cmd.event_type,
        payload := cmd.payload, score := cmd.score }
    let event := MemoryEvent.MemoryEntryAdded { entry := entry }
    match h.store.append event with
    | none => (.error .StorageError, h)
    | some store' =>
      let h1 : AddMemoryEntryHandler := { store := store', memory := h.memory.apply event }
      if h1.memory.entries.length > h1.memory.max_size then
        match h1.prune_lowest with
        | none => (.error .StorageError, h1)
        | some h2 => (.ok entry.id, h2)
      else (.ok entry.id, h1)

/-- `RemoveMemoryEntryCommand`. -/
structure RemoveMemoryEntryCommand where
  entry_id : Uuid
deriving DecidableEq, Repr

/-- `enum RemoveMemoryEntryError`. -/
inductive RemoveMemoryEntryError where
  | NotFound
  | StorageError
deriving DecidableEq, Repr

/-- `RemoveMemoryEntryHandler`. -/
structure RemoveMemoryEntryHandler where
  store : Store MemoryEvent
  memory : AdaptiveMemory
deriving DecidableEq, Repr

/-- `RemoveMemoryEntryHandler::handle` (lines 103-115): errors `NotFound`
when no entry carries the id, else appends then applies a
`MemoryEntryRemoved` event. -/
def RemoveMemoryEntryHandler.handle (h : RemoveMemoryEntryHandler)
    (cmd : RemoveMemoryEntryCommand) :
    Except RemoveMemoryEntryError Unit × RemoveMemoryEntryHandler :=
  if ¬(h.memory.entries.any (fun e => e.id == cmd.entry_id)) then (.error .NotFound, h)
  else
    let event := MemoryEvent.MemoryEntryRemoved { entry_id := cmd.entry_id }
    match h.store.append event with
    | none => (.error .StorageError, h)
    | some store' => (.ok (), { store := store', memory := h.memory.apply event })

/-- `enum PruneMemoryError`. -/
inductive PruneMemoryError where
  | StorageError
deriving DecidableEq, Repr

/-- `PruneMemoryHandler`. -/
structure PruneMemoryHandler where
  store : Store MemoryEvent
  memory : AdaptiveMemory
deriving DecidableEq, Repr

/-- `PruneMemoryHandler::handle` (lines 140-156): returns the empty removal
list when within capacity, else removes the ids of the first `excess`
entries of the stable ascending score sort via a `MemoryPruned` event,
appended then applied. -/
def PruneMemoryHandler.handle (h : PruneMemoryHandler) :
    Except PruneMemoryError (List Uuid) × PruneMemoryHandler :=
  if h.memory.entries.length ≤ h.memory.max_size then (.ok [], h)
  else
    let excess := h.memory.entries.length - h.memory.max_size
    let removed := ((sort_by_score h.memory.entries).take excess).map (·.id)
    let event := MemoryEvent.MemoryPruned { removed_entries := removed }
    match h.store.append event with
    | none => (.error .StorageError, h)
    | some store' => (.ok removed, { store := store', memory := h.memory.apply event })

/-- `UpdateMemoryScoreCommand`. -/
structure UpdateMemoryScoreCommand where
  entry_id : Uuid
  new_score : ℚ
deriving DecidableEq, Repr

/-- `enum UpdateMemoryScoreError`. -/
inductive UpdateMemoryScoreError where
  | NotFound
  | InvalidScore
  | StorageError
deriving DecidableEq, Repr

/-- `UpdateMemoryScoreHandler`. -/
structure UpdateMemoryScoreHandler where
  store : Store MemoryEvent
  memory : AdaptiveMemory
deriving DecidableEq, Repr

/-- `UpdateMemoryScoreHandler::handle` (lines 185-206): rejects scores
outside `[0, 1]`, errors `NotFound` for an unknown id, else appends then
applies a `MemoryScoreUpdated` event. -/
def UpdateMemoryScoreHandler.handle (h : UpdateMemoryScoreHandler)
    (cmd : UpdateMemoryScoreCommand) :
    Except UpdateMemoryScoreError Unit × UpdateMemoryScoreHandler :=
  if ¬(0 ≤ cmd.new_score ∧ cmd.new_score ≤ 1) then (.error .InvalidScore, h)
  else
    match h.memory.entries.find? (fun e => e.id == cmd.entry_id) with
    | none => (.error .NotFound, h)
    | some entry =>
      let event := MemoryEvent.MemoryScoreUpdated
        { entry_id := cmd.entry_id, old_score := entry.score, new_score := cmd.new_score }
      match h.store.append event with
      | none => (.error .StorageError, h)
      | some store' => (.ok (), { store := store', memory := h.memory.apply event })

/-! Specification-side reference definitions, used only to compare the
source behaviour against the specification's words. -/

/-- The occurrence predicate as the specification words it: an event
references an id when the id is the event's subject id or an edge endpoint,
for every event kind of the closed union — in particular also for the
explicit weight-set event, whose subject is its `synapse_id`. -/
def spec_touches (event : Event) (id : Uuid) : Bool :=
  match event with
  | .RandomNeuronAdded e => e.neuron_id == id
  | .RandomNeuronRemoved e => e.neuron_id == id
  | .NeuronAdded e => e.neuron_id == id
  | .NeuronRemoved e => e.neuron_id == id
  | .SynapseCreated sid from_ to_ _ => sid == id || from_ == id || to_ == id
  | .SynapseRemoved sid => sid == id
  | .RandomSynapseAdded e => e.synapse_id == id || e.from_ == id || e.to_ == id
  | .RandomSynapseRemoved e => e.synapse_id == id
  | .SynapseWeightMutated e => e.synapse_id == id
  | .SynapseWeightSet e => e.synapse_id == id
  | .NeuronActivationMutated e => e.neuron_id == id
  | .CuriosityScoreUpdated e => e.target_id == id

/-! Claim theorems.  Concrete fixtures used by individual claims are named
after the claim that uses them. -/

/-- Fixture for C1: a fault-free handler whose network holds neurons 1 and 2
and synapse 3 (1 → 2) with weight 1. -/
def c1_handler : SetSynapseWeightHandler :=
  { store := { log := [], fail_from := none },
    network := { neurons := [Neuron.with_id 1 .Identity, Neuron.with_id 2 .Identity],
                 synapses := [Synapse.with_id 3 1 2 1] } }

/-- C1: the claim says that handling `SetSynapseWeightCommand` for an
existing synapse returns success and afterwards the in-memory network stores
the new weight.  The code violates the second half: the handler appends the
`SynapseWeightSet` event and then calls `Network::apply`, whose match has no
arm for that variant, so the in-memory weight is left unchanged — here the
handler succeeds, the event carrying new weight 2 is durably appended, yet
the network still stores weight 1 for synapse 3, contradicting the
repository's own tests (`tests/set_synapse_weight.rs` and the inline test of
`src/application/set_synapse_weight.rs`).  The not-found half of the claim
does hold: an absent id yields `SynapseNotFound` with log and network
unchanged. -/
theorem C1_set_weight_not_applied :
    ((c1_handler.handle { synapse_id := 3, new_weight := 2 }).1 = .ok () ∧
    (c1_handler.handle { synapse_id := 3, new_weight := 2 }).2.store.log =
      [Event.SynapseWeightSet { synapse_id := 3, old_weight := 1, new_weight := 2 }] ∧
    (((c1_handler.handle { synapse_id := 3, new_weight := 2 }).2.network.synapses.find?
      (fun s => s.id == 3)).map (·.weight)) = some 1) ∧
    c1_handler.handle { synapse_id := 99, new_weight := 2 } =
      (.error .SynapseNotFound, c1_handler) := by
  refine ⟨⟨rfl, rfl, rfl⟩, rfl⟩

/-- Fixture for C2: an explicit weight-set event whose subject is id 7. -/
def c2_event : Event := Event.SynapseWeightSet { synapse_id := 7, old_weight := 0, new_weight := 1 }

/-- Fixture for C2: a fault-free recalculation handler whose history is the
single weight-set event. -/
def c2_handler : RecalculateCuriosityScoreHandler :=
  { store := { log := [c2_event], fail_from := none }, network := Network.default }

/-- C2: the claim says occurrences count every event in the entire history
that references the id, for every event kind of the closed union.  The code
violates this for `Event::SynapseWeightSet`: `touches` has no arm for that
variant, so a weight-set event whose subject is the id is not counted —
over the one-event history below the code computes score `1` (zero
occurrences) where the claimed counting yields `1/2`, and the handler emits
a `CuriosityScoreUpdated` event recording score `1`. -/
theorem C2_weight_set_event_not_counted :
    spec_touches c2_event 7 = true ∧ touches c2_event 7 = false ∧
    compute_score [c2_event] 7 = 1 ∧ (1 : ℚ) / (1 + 1) ≠ 1 ∧
    (c2_handler.handle { target_ids := [7], scope := .Neuron }).1 =
      .ok [Event.CuriosityScoreUpdated { target_id := 7, old_score := 0, new_score := 1 }] := by
  refine ⟨rfl, rfl, ?_, by norm_num, ?_⟩
  · norm_num [compute_score, touches, c2_event, List.filter]
  · norm_num [RecalculateCuriosityScoreHandler.handle, recalc_loop, resolve_targets,
      stored_score, compute_score, touches, f64_epsilon, Network.default, Store.append,
      c2_handler, c2_event, List.filter]

/-- C3: applying a node-removal event — explicit or random — leaves no
synapse with the removed node as either endpoint, and the cascade scenario
(nodes 1 and 2, edge 1→2, remove 1) yields node 2 alone with an empty
synapse set. -/
theorem C3_removal_cascades :
    (∀ (net : Network) (n : Uuid),
      (∀ s ∈ (net.apply (.NeuronRemoved { neuron_id := n })).synapses,
        s.from_ ≠ n ∧ s.to_ ≠ n) ∧
      (∀ s ∈ (net.apply (.RandomNeuronRemoved { neuron_id := n })).synapses,
        s.from_ ≠ n ∧ s.to_ ≠ n)) ∧
    Network.hydrate
      [ .NeuronAdded { neuron_id := 1, activation := .Identity },
        .NeuronAdded { neuron_id := 2, activation := .Identity },
        .SynapseCreated 3 1 2 1,
        .NeuronRemoved { neuron_id := 1 } ] =
      { neurons := [Neuron.with_id 2 .Identity], synapses := [] } := by
  constructor
  · intro net n
    constructor <;> intro s hs <;>
      simp only [Network.apply, Network.apply_neuron_removed,
        Network.apply_random_neuron_removed, List.mem_filter, Bool.and_eq_true,
        bne_iff_ne, ne_eq] at hs <;>
      exact ⟨hs.2.1, hs.2.2⟩
  · rfl

/-- Witness for C3: instantiates the universal statement at a concrete
network and node id. -/
theorem C3_removal_cascades_witness :
    (Synapse.with_id 3 1 2 1).from_ ≠ 5 ∧ (Synapse.with_id 3 1 2 1).to_ ≠ 5 :=
  (C3_removal_cascades.1 { neurons := [], synapses := [Synapse.with_id 3 1 2 1] } 5).1
    (Synapse.with_id 3 1 2 1) (by decide)

/-- C6: every validated precondition failure — memory add or score-update
with a score outside `[0, 1]`, mutate-random-edge-weight with a non-positive
standard deviation, or an explicit command naming a nonexistent target id —
returns its structured error synchronously with the handler state (store log
and in-memory aggregate) unchanged. -/
theorem C6_validation_errors :
    (∀ (h : AddMemoryEntryHandler) (o : AddEntryOracle) (cmd : AddMemoryEntryCommand),
      ¬(0 ≤ cmd.score ∧ cmd.score ≤ 1) →
      h.handle o cmd = (.error .InvalidScore, h)) ∧
    (∀ (h : UpdateMemoryScoreHandler) (cmd : UpdateMemoryScoreCommand),
      ¬(0 ≤ cmd.new_score ∧ cmd.new_score ≤ 1) →
      h.handle cmd = (.error .InvalidScore, h)) ∧
    (∀ (h : MutateRandomSynapseWeightHandler) (o : MutateOracle)
      (cmd : MutateRandomSynapseWeightCommand),
      cmd.std_dev ≤ 0 → h.handle o cmd = (.error .InvalidStdDev, h)) ∧
    (∀ (h : SetSynapseWeightHandler) (cmd : SetSynapseWeightCommand),
      (∀ s ∈ h.network.synapses, s.id ≠ cmd.synapse_id) →
      h.handle cmd = (.error .SynapseNotFound, h)) ∧
    (∀ (h : RemoveMemoryEntryHandler) (cmd : RemoveMemoryEntryCommand),
      (∀ e ∈ h.memory.entries, e.id ≠ cmd.entry_id) →
      h.handle cmd = (.error .NotFound, h)) := by
  refine ⟨?_, ?_, ?_, ?_, ?_⟩
  · intro h o cmd hc
    simp only [AddMemoryEntryHandler.handle, if_pos hc]
  · intro h cmd hc
    simp only [UpdateMemoryScoreHandler.handle, if_pos hc]
  · intro h o cmd hc
    simp only [MutateRandomSynapseWeightHandler.handle, if_pos hc]
  · intro h cmd hc
    have hnone : h.network.synapses.find? (fun s => s.id == cmd.synapse_id) = none := by
      rw [List.find?_eq_none]
      intro s hs
      simpa using hc s hs
    simp only [SetSynapseWeightHandler.handle, hnone]
  · intro h cmd hc
    have hany : ¬(h.memory.entries.any (fun e => e.id == cmd.entry_id) = true) := by
      simp only [List.any_eq_true, beq_iff_eq, not_exists]
      intro e
      intro hmem
      exact hc e hmem.1 hmem.2
    simp only [RemoveMemoryEntryHandler.handle, if_pos hany]

/-- Fixture for the C6 witness: a mutate-weight handler with one synapse. -/
def c6_mutate_handler : MutateRandomSynapseWeightHandler :=
  { store := { log := [], fail_from := none },
    network := { neurons := [Neuron.with_id 1 .Identity, Neuron.with_id 2 .Identity],
                 synapses := [Synapse.with_id 3 1 2 1] } }

/-- Fixture for the C6 witness: an empty memory-add handler of capacity 4. -/
def c6_add_handler : AddMemoryEntryHandler :=
  { store := { log := [], fail_from := none }, memory := AdaptiveMemory.new 4 }

/-- Witness for C6: the specification's scenario — mutate-random-edge-weight
with standard deviation `-1.0` returns the invalid-standard-deviation error
with the log unchanged — plus a memory add with score `2` rejected. -/
theorem C6_validation_errors_witness :
    c6_mutate_handler.handle { choice := 0, noise := 0 } { std_dev := -1 } =
      (.error .InvalidStdDev, c6_mutate_handler) ∧
    c6_add_handler.handle { entry_id := 0, timestamp := 0 }
      { event_type := "t", payload := "p", score := 2 } =
      (.error .InvalidScore, c6_add_handler) := by
  constructor
  · exact C6_validation_errors.2.2.1 c6_mutate_handler _ _ (by norm_num)
  · exact C6_validation_errors.1 c6_add_handler _ _ (by norm_num)

/-! Helper lemmas for the capacity-bound claim. -/

/-- Splitting a filter: the entries failing a predicate are the total minus
those satisfying it. -/
theorem length_filter_not_eq (l : List MemoryEntry) (p : MemoryEntry → Bool) :
    (l.filter (fun a => !p a)).length = l.length - (l.filter p).length := by
  induction l with
  | nil => simp
  | cons a t ih =>
    have hle := List.length_filter_le p t
    by_cases h : p a = true
    · simp [h, List.filter_cons, ih]
    · simp [h, List.filter_cons, ih]
      omega

/-- Removing the ids of the first `excess` entries of the score sort leaves
at most `max_size` entries: the kept entries are those whose id is not among
the removed ones, and at least `excess` entries carry a removed id. -/
theorem prune_keep_le (entries : List MemoryEntry) (max_size : Nat) :
    (entries.filter (fun e =>
      !((((sort_by_score entries).take (entries.length - max_size)).map (·.id)).contains
        e.id))).length ≤ max_size := by
  by_cases hlen : entries.length ≤ max_size
  · exact le_trans (List.length_filter_le _ _) hlen
  · set excess := entries.length - max_size with hex
    set sorted := sort_by_score entries with hsorted
    set removed := (sorted.take excess).map (·.id) with hrem
    set p : MemoryEntry → Bool := fun e => removed.contains e.id with hp
    have hperm : sorted.Perm entries := List.mergeSort_perm _ _
    have hlensort : sorted.length = entries.length := hperm.length_eq
    have htake : ∀ e ∈ sorted.take excess, p e = true := by
      intro e he
      have hm : e.id ∈ removed := List.mem_map_of_mem (·.id) he
      simpa [hp, List.contains] using hm
    have hcnt : excess ≤ (sorted.filter p).length := by
      have h1 : (sorted.take excess).filter p = sorted.take excess :=
        List.filter_eq_self.mpr htake
      have h3 : ((sorted.take excess).filter p).Sublist (sorted.filter p) :=
        (List.take_sublist _ _).filter p
      have h4 := h3.length_le
      rw [h1, List.length_take] at h4
      omega
    have hpermlen : (sorted.filter p).length = (entries.filter p).length :=
      (hperm.filter p).length_eq
    have hQ : entries.filter (fun e => !removed.contains e.id) =
        entries.filter (fun a => !p a) := rfl
    rw [hQ, length_filter_not_eq entries p]
    have hfle := List.length_filter_le p entries
    omega

/-- A successful add leaves the memory within capacity. -/
theorem add_handle_bound (h : AddMemoryEntryHandler) (o : AddEntryOracle)
    (cmd : AddMemoryEntryCommand) (u : Uuid)
    (res : Except AddMemoryEntryError Uuid × AddMemoryEntryHandler)
    (hres : h.handle o cmd = res) (hok : res.1 = .ok u) :
    res.2.memory.entries.length ≤ res.2.memory.max_size := by
  simp only [AddMemoryEntryHandler.handle] at hres
  split at hres
  · rw [← hres] at hok
    simp at hok
  · split at hres
    · rw [← hres] at hok
      simp at hok
    · rename_i store' happ
      split at hres
      · rename_i hover
        split at hres
        · rw [← hres] at hok
          simp at hok
        · rename_i h2 hprune
          simp only [AddMemoryEntryHandler.prune_lowest] at hprune
          split at hprune
          · exact absurd hprune (by simp)
          · rename_i store2 happ2
            rw [← hres]
            injection hprune with hprune
            rw [← hprune]
            simp only [AdaptiveMemory.apply]
            exact prune_keep_le _ _
      · rename_i hover
        rw [← hres]
        simp only
        omega

/-- A successful explicit prune leaves the memory within capacity. -/
theorem prune_handle_bound (h : PruneMemoryHandler) (r : List Uuid)
    (res : Except PruneMemoryError (List Uuid) × PruneMemoryHandler)
    (hres : h.handle = res) (hok : res.1 = .ok r) :
    res.2.memory.entries.length ≤ res.2.memory.max_size := by
  simp only [PruneMemoryHandler.handle] at hres
  split at hres
  · rename_i hle
    rw [← hres]
    simpa using hle
  · split at hres
    · rw [← hres] at hok
      simp at hok
    · rename_i store' happ
      rw [← hres]
      simp only [AdaptiveMemory.apply]
      exact prune_keep_le _ _

/-- Over capacity, the explicit prune returns exactly the ids of the first
`excess` entries of the stable ascending score sort. -/
theorem prune_handle_removed (h : PruneMemoryHandler) (r : List Uuid)
    (res : Except PruneMemoryError (List Uuid) × PruneMemoryHandler)
    (hres : h.handle = res) (hok : res.1 = .ok r) :
    r = ((sort_by_score h.memory.entries).take
      (h.memory.entries.length - h.memory.max_size)).map (·.id) ∨
    h.memory.entries.length ≤ h.memory.max_size := by
  simp only [PruneMemoryHandler.handle] at hres
  split at hres
  · rename_i hle
    right
    exact hle
  · split at hres
    · rw [← hres] at hok
      simp at hok
    · left
      rw [← hres] at hok
      simpa using hok.symm

/-- Fixture for the C5 scenario: an empty add handler with capacity 1. -/
def c5_h0 : AddMemoryEntryHandler :=
  { store := { log := [], fail_from := none }, memory := AdaptiveMemory.new 1 }

/-- Fixture for the C5 scenario: entry A with score `1/10`, evicted by the
prune pass. -/
def c5_entryA : MemoryEntry :=
  { id := 10, timestamp := 0, event_type := "a", payload := "p", score := 1/10 }

/-- Fixture for the C5 scenario: entry B with score `9/10`, the sole
survivor. -/
def c5_entryB : MemoryEntry :=
  { id := 11, timestamp := 1, event_type := "b", payload := "p", score := 9/10 }

/-- The C5 scenario computed: with capacity 1, adding entry 10 with score
`1/10` and then entry 11 with score `9/10` leaves exactly entry 11. -/
theorem c5_scenario :
    ((c5_h0.handle { entry_id := 10, timestamp := 0 }
        { event_type := "a", payload := "p", score := 1/10 }).2.handle
      { entry_id := 11, timestamp := 1 }
        { event_type := "b", payload := "p", score := 9/10 }).2.memory.entries = [c5_entryB] := by
  have hsort : sort_by_score
      [ { id := 10, timestamp := 0, event_type := "a", payload := "p", score := 1/10 },
        { id := 11, timestamp := 1, event_type := "b", payload := "p", score := 9/10 } ] =
      [ ({ id := 10, timestamp := 0, event_type := "a", payload := "p", score := 1/10 } :
          MemoryEntry),
        { id := 11, timestamp := 1, event_type := "b", payload := "p", score := 9/10 } ] :=
    List.mergeSort_of_sorted (by
      simp [List.pairwise_cons]
      norm_num)
  have hstep1 : c5_h0.handle { entry_id := 10, timestamp := 0 }
      { event_type := "a", payload := "p", score := 1/10 } =
      (.ok 10, { store := { log := [.MemoryEntryAdded { entry := c5_entryA }],
                            fail_from := none },
                 memory := { entries := [c5_entryA], max_size := 1 } }) := by
    norm_num [AddMemoryEntryHandler.handle, AdaptiveMemory.apply, AdaptiveMemory.new,
      Store.append, c5_h0, c5_entryA]
  rw [hstep1]
  norm_num [AddMemoryEntryHandler.handle, AddMemoryEntryHandler.prune_lowest,
    AdaptiveMemory.apply, Store.append, c5_entryA, c5_entryB, hsort, List.filter]

/-- C5: whenever the add-entry handler or the prune handler returns
successfully the memory is within capacity; over capacity the prune pass
removes exactly the ids of the first `excess` entries of the ascending score
sort, which is a sorted, stable permutation of the entries; and the
capacity-1 scenario — add score `1/10` then score `9/10` — retains exactly
the second entry. -/
theorem C5_capacity_bound :
    (∀ (h : AddMemoryEntryHandler) (o : AddEntryOracle) (cmd : AddMemoryEntryCommand)
      (u : Uuid) (res : Except AddMemoryEntryError Uuid × AddMemoryEntryHandler),
      h.handle o cmd = res → res.1 = .ok u →
      res.2.memory.entries.length ≤ res.2.memory.max_size) ∧
    (∀ (h : PruneMemoryHandler) (r : List Uuid)
      (res : Except PruneMemoryError (List Uuid) × PruneMemoryHandler),
      h.handle = res → res.1 = .ok r →
      res.2.memory.entries.length ≤ res.2.memory.max_size) ∧
    (∀ (h : PruneMemoryHandler) (r : List Uuid)
      (res : Except PruneMemoryError (List Uuid) × PruneMemoryHandler),
      h.handle = res → res.1 = .ok r → h.memory.max_size < h.memory.entries.length →
      r = ((sort_by_score h.memory.entries).take
        (h.memory.entries.length - h.memory.max_size)).map (·.id)) ∧
    (∀ (l : List MemoryEntry),
      (sort_by_score l).Perm l ∧
      (sort_by_score l).Pairwise (fun a b => a.score ≤ b.score) ∧
      (∀ (c : List MemoryEntry), c.Pairwise (fun a b => a.score ≤ b.score) → c.Sublist l →
        c.Sublist (sort_by_score l))) ∧
    ((c5_h0.handle { entry_id := 10, timestamp := 0 }
        { event_type := "a", payload := "p", score := 1/10 }).2.handle
      { entry_id := 11, timestamp := 1 }
        { event_type := "b", payload := "p", score := 9/10 }).2.memory.entries = [c5_entryB] := by
  have htrans : ∀ (a b c : MemoryEntry), decide (a.score ≤ b.score) →
      decide (b.score ≤ c.score) → decide (a.score ≤ c.score) := by
    intro a b c hab hbc
    simp only [decide_eq_true_eq] at hab hbc ⊢
    exact le_trans hab hbc
  have htotal : ∀ (a b : MemoryEntry),
      decide (a.score ≤ b.score) || decide (b.score ≤ a.score) := by
    intro a b
    simpa [Bool.or_eq_true, decide_eq_true_eq] using le_total a.score b.score
  refine ⟨add_handle_bound, prune_handle_bound, ?_, ?_, c5_scenario⟩
  · intro h r res hres hok hover
    rcases prune_handle_removed h r res hres hok with hr | hle
    · exact hr
    · omega
  · intro l
    refine ⟨List.mergeSort_perm _ _, ?_, ?_⟩
    · have := List.sorted_mergeSort htrans htotal l
      exact this.imp (by simp)
    · intro c hc hsub
      exact List.sublist_mergeSort htrans htotal (hc.imp (by simp)) hsub

/-- Fixture for the C5 witness: an empty prune handler of capacity 0. -/
def c5_wh : PruneMemoryHandler :=
  { store := { log := [], fail_from := none }, memory := AdaptiveMemory.new 0 }

/-- Witness for C5: a concrete successful prune run stays within capacity. -/
theorem C5_capacity_bound_witness :
    c5_wh.memory.entries.length ≤ c5_wh.memory.max_size :=
  C5_capacity_bound.2.1 c5_wh [] (.ok [], c5_wh) rfl rfl

/-! Helper lemmas for the add-random-edge claim. -/

/-- Membership in the candidate list: exactly the ordered pairs of distinct
existing neuron ids not already connected in that direction. -/
theorem mem_candidate_pairs (net : Network) (f t : Uuid) :
    (f, t) ∈ candidate_pairs net ↔
    f ∈ net.neurons.map (·.id) ∧ t ∈ net.neurons.map (·.id) ∧ f ≠ t ∧
    ¬∃ s ∈ net.synapses, s.from_ = f ∧ s.to_ = t := by
  simp only [candidate_pairs, List.mem_flatMap, List.mem_map, List.mem_filter,
    Bool.and_eq_true, bne_iff_ne, ne_eq, Bool.not_eq_true', List.any_eq_false,
    Bool.and_eq_false_iff, beq_iff_eq, beq_eq_false_iff_ne]
  constructor
  · rintro ⟨a, ha, b, ⟨hb, hne, hcon⟩, heq⟩
    injection heq with h1 h2
    subst h1; subst h2
    refine ⟨ha, hb, hne, ?_⟩
    rintro ⟨s, hs, hsf, hst⟩
    exact hcon s hs ⟨hsf, hst⟩
  · rintro ⟨hf, ht, hne, hcon⟩
    refine ⟨f, hf, t, ⟨ht, hne, ?_⟩, rfl⟩
    intro s hs hand
    exact hcon ⟨s, hs, hand.1, hand.2⟩

theorem candidate_pairs_eq_nil_iff (net : Network) :
    candidate_pairs net = [] ↔
    ∀ a ∈ net.neurons.map (·.id), ∀ b ∈ net.neurons.map (·.id), a ≠ b →
      ∃ s ∈ net.synapses, s.from_ = a ∧ s.to_ = b := by
  rw [List.eq_nil_iff_forall_not_mem]
  constructor
  · intro hnil a ha b hb hab
    by_contra hcon
    exact hnil (a, b) ((mem_candidate_pairs net a b).mpr ⟨ha, hb, hab, hcon⟩)
  · intro hall p hp
    obtain ⟨f, t⟩ := p
    rw [mem_candidate_pairs] at hp
    exact hp.2.2.2 (hall f hp.1 t hp.2.1 hp.2.2.1)



theorem c7_behaviour :
    ∀ (h : AddRandomSynapseHandler) (o : SynapseOracle), h.store.ok →
    (((h.handle o).1 = .error .NotEnoughNeurons) ↔ h.network.neurons.length < 2) ∧
    (2 ≤ h.network.neurons.length →
      (((h.handle o).1 = .error .NoAvailableConnection) ↔
        ∀ a ∈ h.network.neurons.map (·.id), ∀ b ∈ h.network.neurons.map (·.id), a ≠ b →
          ∃ s ∈ h.network.synapses, s.from_ = a ∧ s.to_ = b)) ∧
    (2 ≤ h.network.neurons.length →
      ¬(∀ a ∈ h.network.neurons.map (·.id), ∀ b ∈ h.network.neurons.map (·.id), a ≠ b →
          ∃ s ∈ h.network.synapses, s.from_ = a ∧ s.to_ = b) →
      ∃ f t, (h.handle o).1 = .ok o.synapse_id ∧
        f ∈ h.network.neurons.map (·.id) ∧ t ∈ h.network.neurons.map (·.id) ∧ f ≠ t ∧
        ¬(∃ s ∈ h.network.synapses, s.from_ = f ∧ s.to_ = t) ∧
        Synapse.with_id o.synapse_id f t o.weight ∈ (h.handle o).2.network.synapses) := by
  intro h o hok
  have hok' : h.store.fail_from = none := hok
  have hmaplen : (h.network.neurons.map (·.id)).length = h.network.neurons.length :=
    List.length_map _ _
  by_cases h2 : (h.network.neurons.map (·.id)).length < 2
  · have he : h.handle o = (.error .NotEnoughNeurons, h) := by
      simp only [AddRandomSynapseHandler.handle, if_pos h2]
    rw [he]
    refine ⟨by simpa using (hmaplen ▸ h2), ?_, ?_⟩
    · intro hge
      omega
    · intro hge
      omega
  · by_cases hnil : candidate_pairs h.network = []
    · have he : h.handle o = (.error .NoAvailableConnection, h) := by
        simp only [AddRandomSynapseHandler.handle, if_neg h2, hnil, List.getElem?_nil,
          List.length_nil]
      rw [he]
      refine ⟨iff_of_false (by simp) (by omega), ?_, ?_⟩
      · intro hge
        simp only [true_iff]
        exact (candidate_pairs_eq_nil_iff h.network).mp hnil
      · intro hge hcon
        exact absurd ((candidate_pairs_eq_nil_iff h.network).mp hnil) hcon
    · have hlen0 : 0 < (candidate_pairs h.network).length := List.length_pos.mpr hnil
      have hidx : o.choice % (candidate_pairs h.network).length <
          (candidate_pairs h.network).length := Nat.mod_lt _ hlen0
      have hfm : (candidate_pairs h.network)[o.choice % (candidate_pairs h.network).length]? =
          some ((candidate_pairs h.network)[o.choice % (candidate_pairs h.network).length]) :=
        List.getElem?_eq_getElem hidx
      have hmem : (candidate_pairs h.network)[o.choice % (candidate_pairs h.network).length] ∈
          candidate_pairs h.network := List.getElem_mem _
      rcases hpr : (candidate_pairs h.network)[o.choice % (candidate_pairs h.network).length]
        with ⟨f, t⟩
      rw [hpr] at hfm hmem
      obtain ⟨hf, ht, hne, hnc⟩ := (mem_candidate_pairs h.network f t).mp hmem
      have he1 : (h.handle o).1 = .ok o.synapse_id := by
        simp only [AddRandomSynapseHandler.handle, if_neg h2, hfm, Store.append, hok']
      have he2 : (h.handle o).2.network = h.network.apply (Event.RandomSynapseAdded
          { synapse_id := o.synapse_id, from_ := f, to_ := t, weight := o.weight }) := by
        simp only [AddRandomSynapseHandler.handle, if_neg h2, hfm, Store.append, hok']
      refine ⟨?_, ?_, ?_⟩
      · rw [he1]
        exact iff_of_false (by simp) (by omega)
      · intro hge
        rw [he1]
        refine iff_of_false (by simp) ?_
        intro hc
        exact hnil ((candidate_pairs_eq_nil_iff h.network).mpr hc)
      · intro hge hcon
        refine ⟨f, t, he1, hf, ht, hne, hnc, ?_⟩
        rw [he2]
        have hguard : (h.network.neurons.any (fun n => n.id == f) &&
            (h.network.neurons.any (fun n => n.id == t)) && (f != t) &&
            !(h.network.synapses.any (fun s => s.from_ == f && s.to_ == t))) = true := by
          simp only [List.mem_map] at hf ht
          obtain ⟨nf, hnf, hnf2⟩ := hf
          obtain ⟨nt, hnt, hnt2⟩ := ht
          simp only [Bool.and_eq_true, List.any_eq_true, beq_iff_eq, bne_iff_ne, ne_eq,
            Bool.not_eq_true', List.any_eq_false, Bool.and_eq_true, not_and]
          refine ⟨⟨⟨⟨nf, hnf, hnf2⟩, ⟨nt, hnt, hnt2⟩⟩, hne⟩, ?_⟩
          intro s hs hsf hst
          exact hnc ⟨s, hs, hsf, hst⟩
        simp only [Network.apply, Network.apply_random_synapse_added]
        rw [if_pos hguard]
        exact List.mem_append_right _ (by simp)

/-- Fixture for the C7 scenario: two neurons connected in both directions. -/
def c7_handler : AddRandomSynapseHandler :=
  { store := { log := [], fail_from := none },
    network := { neurons := [Neuron.with_id 1 .Identity, Neuron.with_id 2 .Identity],
                 synapses := [Synapse.with_id 3 1 2 1, Synapse.with_id 4 2 1 1] } }

/-- C7: the add-random-edge handler fails `NotEnoughNeurons` iff the network
has fewer than two neurons; with at least two, it fails
`NoAvailableConnection` iff every ordered pair of distinct existing neuron
ids is already connected in that direction; otherwise it succeeds and the
created synapse connects a distinct, previously unconnected ordered pair;
and in the two-node scenario with both directions present it returns
`NoAvailableConnection`. -/
theorem C7_add_random_synapse_errors :
    (∀ (h : AddRandomSynapseHandler) (o : SynapseOracle), h.store.ok →
    (((h.handle o).1 = .error .NotEnoughNeurons) ↔ h.network.neurons.length < 2) ∧
    (2 ≤ h.network.neurons.length →
      (((h.handle o).1 = .error .NoAvailableConnection) ↔
        ∀ a ∈ h.network.neurons.map (·.id), ∀ b ∈ h.network.neurons.map (·.id), a ≠ b →
          ∃ s ∈ h.network.synapses, s.from_ = a ∧ s.to_ = b)) ∧
    (2 ≤ h.network.neurons.length →
      ¬(∀ a ∈ h.network.neurons.map (·.id), ∀ b ∈ h.network.neurons.map (·.id), a ≠ b →
          ∃ s ∈ h.network.synapses, s.from_ = a ∧ s.to_ = b) →
      ∃ f t, (h.handle o).1 = .ok o.synapse_id ∧
        f ∈ h.network.neurons.map (·.id) ∧ t ∈ h.network.neurons.map (·.id) ∧ f ≠ t ∧
        ¬(∃ s ∈ h.network.synapses, s.from_ = f ∧ s.to_ = t) ∧
        Synapse.with_id o.synapse_id f t o.weight ∈ (h.handle o).2.network.synapses)) ∧
    (c7_handler.handle { choice := 0, weight := 0, synapse_id := 9 }).1 =
      .error .NoAvailableConnection :=
  ⟨c7_behaviour, rfl⟩

/-- Fixture for the C7 witness: a single-neuron network. -/
def c7_small : AddRandomSynapseHandler :=
  { store := { log := [], fail_from := none },
    network := { neurons := [Neuron.with_id 1 .Identity], synapses := [] } }

/-- Witness for C7: on a one-neuron network the handler reports that there
are not enough neurons. -/
theorem C7_add_random_synapse_errors_witness :
    (c7_small.handle { choice := 0, weight := 0, synapse_id := 9 }).1 =
      .error .NotEnoughNeurons :=
  (C7_add_random_synapse_errors.1 c7_small { choice := 0, weight := 0, synapse_id := 9 }
    rfl).1.mpr (by decide)

/-! The random-edge invariant claim. -/

/-- The random-edge structural invariant: no self-loop and no two synapses
with the same ordered `(from, to)` pair. -/
def SynInv (net : Network) : Prop :=
  (∀ s ∈ net.synapses, s.from_ ≠ s.to_) ∧
  net.synapses.Pairwise (fun s t => ¬(s.from_ = t.from_ ∧ s.to_ = t.to_))

theorem synInv_of_sublist {l l' : List Synapse} (hsub : l'.Sublist l)
    (h1 : ∀ s ∈ l, s.from_ ≠ s.to_)
    (h2 : l.Pairwise (fun s t => ¬(s.from_ = t.from_ ∧ s.to_ = t.to_))) :
    (∀ s ∈ l', s.from_ ≠ s.to_) ∧
    l'.Pairwise (fun s t => ¬(s.from_ = t.from_ ∧ s.to_ = t.to_)) :=
  ⟨fun s hs => h1 s (hsub.subset hs), h2.sublist hsub⟩

theorem synInv_of_map {l : List Synapse} (f : Synapse → Synapse)
    (hf : ∀ s, (f s).from_ = s.from_ ∧ (f s).to_ = s.to_)
    (h1 : ∀ s ∈ l, s.from_ ≠ s.to_)
    (h2 : l.Pairwise (fun s t => ¬(s.from_ = t.from_ ∧ s.to_ = t.to_))) :
    (∀ s ∈ l.map f, s.from_ ≠ s.to_) ∧
    (l.map f).Pairwise (fun s t => ¬(s.from_ = t.from_ ∧ s.to_ = t.to_)) := by
  constructor
  · intro s hs
    obtain ⟨a, ha, rfl⟩ := List.mem_map.mp hs
    rw [(hf a).1, (hf a).2]
    exact h1 a ha
  · refine h2.map f ?_
    intro a b hab
    rw [(hf a).1, (hf a).2, (hf b).1, (hf b).2]
    exact hab

/-- Every event other than an explicit `SynapseCreated` preserves the
random-edge invariant. -/
theorem synInv_apply (net : Network) (e : Event) (hinv : SynInv net)
    (hne : ∀ id f t w, e ≠ .SynapseCreated id f t w) : SynInv (net.apply e) := by
  obtain ⟨h1, h2⟩ := hinv
  cases e with
  | RandomNeuronAdded e => exact ⟨h1, h2⟩
  | NeuronAdded e => exact ⟨h1, h2⟩
  | RandomNeuronRemoved e =>
    exact synInv_of_sublist (List.filter_sublist _) h1 h2
  | NeuronRemoved e =>
    exact synInv_of_sublist (List.filter_sublist _) h1 h2
  | SynapseCreated id f t w => exact absurd rfl (hne id f t w)
  | SynapseRemoved id =>
    exact synInv_of_sublist (List.filter_sublist _) h1 h2
  | RandomSynapseRemoved e =>
    exact synInv_of_sublist (List.filter_sublist _) h1 h2
  | SynapseWeightMutated e =>
    exact synInv_of_map _ (fun s => by split <;> simp) h1 h2
  | SynapseWeightSet e => exact ⟨h1, h2⟩
  | NeuronActivationMutated e => exact ⟨h1, h2⟩
  | CuriosityScoreUpdated e =>
    simp only [Network.apply, Network.apply_curiosity_score_updated]
    split
    · exact ⟨h1, h2⟩
    · split
      · exact synInv_of_map _ (fun s => by split <;> simp) h1 h2
      · exact ⟨h1, h2⟩
  | RandomSynapseAdded e =>
    simp only [Network.apply, Network.apply_random_synapse_added]
    split
    · rename_i hguard
      simp only [Bool.and_eq_true, List.any_eq_true, beq_iff_eq, bne_iff_ne, ne_eq,
        Bool.not_eq_true', List.any_eq_false, Bool.and_eq_true, not_and] at hguard
      obtain ⟨⟨⟨hf, ht⟩, hne'⟩, hnc⟩ := hguard
      dsimp only [insert_synapse]
      constructor
      · intro s hs
        rcases List.mem_append.mp hs with hs | hs
        · exact h1 s (List.mem_of_mem_filter hs)
        · rcases List.mem_singleton.mp hs with rfl
          exact hne'
      · rw [List.pairwise_append]
        refine ⟨h2.sublist (List.filter_sublist _), List.pairwise_singleton _ _, ?_⟩
        intro s hs t ht'
        rcases List.mem_singleton.mp ht' with rfl
        intro hcon
        exact hnc s (List.mem_of_mem_filter hs) hcon.1 hcon.2
    · exact ⟨h1, h2⟩


/-- A successful or failed add-random-synapse command preserves the
random-edge invariant. -/
theorem synInv_handle (h : AddRandomSynapseHandler) (o : SynapseOracle)
    (hinv : SynInv h.network) : SynInv ((h.handle o).2.network) := by
  simp only [AddRandomSynapseHandler.handle]
  split
  · exact hinv
  · split
    · exact hinv
    · split
      · exact hinv
      · exact synInv_apply _ _ hinv (fun id f t w hcon => Event.noConfusion hcon)

/-- Replaying any events free of explicit `SynapseCreated` preserves the
random-edge invariant. -/
theorem synInv_foldl (net : Network) (evs : List Event) (hinv : SynInv net)
    (hno : ∀ e ∈ evs, ∀ id f t w, e ≠ .SynapseCreated id f t w) :
    SynInv (evs.foldl Network.apply net) := by
  induction evs generalizing net with
  | nil => exact hinv
  | cons e rest ih =>
    exact ih _ (synInv_apply net e hinv (hno e (by simp)))
      (fun e' he' => hno e' (by simp [he']))

theorem c4_selfloop : ¬ SynInv (Network.hydrate
    [ .NeuronAdded { neuron_id := 1, activation := .Identity }, .SynapseCreated 2 1 1 0 ]) := by
  intro hinv
  have hsyn : (Network.hydrate
      [ .NeuronAdded { neuron_id := 1, activation := .Identity },
        .SynapseCreated 2 1 1 0 ]).synapses = [Synapse.with_id 2 1 1 0] := rfl
  have := hinv.1 (Synapse.with_id 2 1 1 0) (by rw [hsyn]; exact List.mem_singleton.mpr rfl)
  exact this rfl

theorem c4_duplicate : ¬ SynInv (Network.hydrate
    [ .NeuronAdded { neuron_id := 1, activation := .Identity },
      .NeuronAdded { neuron_id := 2, activation := .Identity },
      .SynapseCreated 3 1 2 0, .SynapseCreated 4 1 2 0 ]) := by
  intro hinv
  have hsyn : (Network.hydrate
      [ .NeuronAdded { neuron_id := 1, activation := .Identity },
        .NeuronAdded { neuron_id := 2, activation := .Identity },
        .SynapseCreated 3 1 2 0, .SynapseCreated 4 1 2 0 ]).synapses =
      [Synapse.with_id 3 1 2 0, Synapse.with_id 4 1 2 0] := rfl
  have h2 := hinv.2
  rw [hsyn, List.pairwise_cons] at h2
  exact h2.1 (Synapse.with_id 4 1 2 0) (List.mem_singleton.mpr rfl) ⟨rfl, rfl⟩

/-- C4: replaying any event sequence free of explicit `SynapseCreated`
events — in particular the `RandomSynapseAdded` events emitted by successful
add-random-synapse commands — preserves the no-self-loop / no-duplicate-pair
invariant, as does every run of the add-random-synapse handler; the empty
network satisfies it; and the explicit creation path is not checked: replays
containing explicit `SynapseCreated` events can produce a self-loop or a
duplicate ordered pair. -/
theorem C4_random_synapse_invariant :
    (∀ (net : Network) (evs : List Event), SynInv net →
      (∀ e ∈ evs, ∀ id f t w, e ≠ .SynapseCreated id f t w) →
      SynInv (evs.foldl Network.apply net)) ∧
    (∀ (h : AddRandomSynapseHandler) (o : SynapseOracle),
      SynInv h.network → SynInv ((h.handle o).2.network)) ∧
    SynInv Network.default ∧
    ¬ SynInv (Network.hydrate
      [ .NeuronAdded { neuron_id := 1, activation := .Identity }, .SynapseCreated 2 1 1 0 ]) ∧
    ¬ SynInv (Network.hydrate
      [ .NeuronAdded { neuron_id := 1, activation := .Identity },
        .NeuronAdded { neuron_id := 2, activation := .Identity },
        .SynapseCreated 3 1 2 0, .SynapseCreated 4 1 2 0 ]) :=
  ⟨synInv_foldl, synInv_handle, ⟨by simp [Network.default], by simp [Network.default]⟩,
    c4_selfloop, c4_duplicate⟩

/-- Witness for C4: replaying one `RandomSynapseAdded` event over the empty
network keeps the invariant. -/
theorem C4_random_synapse_invariant_witness :
    SynInv ([Event.RandomSynapseAdded { synapse_id := 9, from_ := 1, to_ := 2, weight := 0 }
      ].foldl Network.apply Network.default) :=
  C4_random_synapse_invariant.1 Network.default _
    ⟨by simp [Network.default], by simp [Network.default]⟩
    (by intro e he id f t w; simp at he; simp [he])

/-! The unfiltered-targets claim about curiosity recalculation. -/

/-- Filtering a replicated list by a predicate satisfied by its element
keeps the whole list. -/
theorem filter_replicate_of_pos {α : Type} (p : α → Bool) (a : α) (hpa : p a = true) (n : Nat) :
    (List.replicate n a).filter p = List.replicate n a := by
  induction n with
  | zero => rfl
  | succ m ih => simp [List.replicate_succ, List.filter_cons, hpa, ih]

/-- Counterexample history: `2^52 - 1` removal events all naming id 7, so
the recomputed score is exactly `f64::EPSILON`. -/
def c10_history : List Event := List.replicate (2 ^ 52 - 1) (Event.SynapseRemoved 7)

/-- Counterexample fixture: the recalculation handler over that history,
with id 7 absent from the (empty) network. -/
def c10_handler : RecalculateCuriosityScoreHandler :=
  { store := { log := c10_history, fail_from := none }, network := Network.default }

/-- Counterexample to C10 as stated: the claim asserts the handler appends a
score-update event for a nonexistent target for every occurrence count, but
at `occurrences = 2^52 - 1` the recomputed score `1/(1+occurrences)` equals
`f64::EPSILON` exactly, the strict comparison fails, and the handler appends
nothing and leaves its state unchanged. -/
theorem C10_epsilon_boundary_counterexample :
    c10_handler.handle { target_ids := [7], scope := .Neuron } = (.ok [], c10_handler) ∧
    c10_handler.network.neurons.find? (fun n => n.id == 7) = none ∧
    c10_handler.network.synapses.find? (fun s => s.id == 7) = none := by
  have hscore : compute_score c10_history 7 = f64_epsilon := by
    rw [compute_score, c10_history, filter_replicate_of_pos _ _ rfl, List.length_replicate,
      f64_epsilon]
    norm_num
  have h1 : c10_handler.network.neurons = [] := rfl
  have h2 : c10_handler.network.synapses = [] := rfl
  have hlog : c10_handler.store.log = c10_history := rfl
  have hcond : ¬(|f64_epsilon - (0:ℚ)| > f64_epsilon) := by
    rw [sub_zero, abs_of_pos (by rw [f64_epsilon]; norm_num : (0:ℚ) < f64_epsilon)]
    exact lt_irrefl _
  refine ⟨?_, rfl, rfl⟩
  simp only [RecalculateCuriosityScoreHandler.handle, resolve_targets, recalc_loop,
    stored_score, h1, h2, List.find?_nil, hlog, hscore]
  rw [if_neg hcond]


/-- The score-update event the recalculation handler derives for a target
whose stored score defaults to 0. -/
def score_event (log : List Event) (t : Uuid) : Event :=
  Event.CuriosityScoreUpdated { target_id := t, old_score := 0, new_score := compute_score log t }

/-- C10 (amended): for the explicit `Neuron` and `Synapse` scopes the
caller-supplied target ids are used unfiltered; for an id absent from the
network the stored score defaults to 0, and whenever
`occurrences + 1 < 2^52` (so that `1/(1+occurrences)` exceeds
`f64::EPSILON`) the handler appends and applies a curiosity-score-update
event for that nonexistent target. -/
theorem C10_unfiltered_targets :
    (∀ (h : RecalculateCuriosityScoreHandler) (cmd : RecalculateCuriosityScoreCommand),
      (cmd.scope = .Neuron ∨ cmd.scope = .Synapse) → resolve_targets h cmd = cmd.target_ids) ∧
    (∀ (h : RecalculateCuriosityScoreHandler) (t : Uuid), h.store.ok →
      h.network.neurons.find? (fun n => n.id == t) = none →
      h.network.synapses.find? (fun s => s.id == t) = none →
      (h.store.log.filter (fun e => touches e t)).length + 1 < 2 ^ 52 →
      h.handle { target_ids := [t], scope := .Neuron } =
        (.ok [score_event h.store.log t],
         { store := { log := h.store.log ++ [score_event h.store.log t], fail_from := none },
           network := h.network.apply (score_event h.store.log t) })) := by
  constructor
  · intro h cmd hsc
    rcases hsc with hsc | hsc <;> rw [resolve_targets, hsc]
  · intro h t hok hn hs hsmall
    have hok' : h.store.fail_from = none := hok
    have hposden : (0:ℚ) < 1 + ((h.store.log.filter (fun e => touches e t)).length : ℚ) := by
      positivity
    have hcond : |compute_score h.store.log t - (0:ℚ)| > f64_epsilon := by
      rw [sub_zero, compute_score, abs_of_pos (by positivity), f64_epsilon, gt_iff_lt,
        div_lt_div_iff₀ (by norm_num) hposden]
      rw [one_mul, one_mul]
      have : ((h.store.log.filter (fun e => touches e t)).length : ℚ) + 1 < 2 ^ 52 := by
        exact_mod_cast hsmall
      linarith
    simp only [RecalculateCuriosityScoreHandler.handle, resolve_targets, recalc_loop,
      stored_score, hn, hs]
    rw [if_pos hcond]
    simp only [Store.append, hok', recalc_loop, score_event]

/-- Fixture for the C10 witness: an empty history and an empty network. -/
def c10_witness_handler : RecalculateCuriosityScoreHandler :=
  { store := { log := [], fail_from := none }, network := Network.default }

/-- Witness for C10: over the empty history, recalculating for the absent
id 7 appends a score-update event carrying the default old score 0. -/
theorem C10_unfiltered_targets_witness :
    c10_witness_handler.handle { target_ids := [7], scope := .Neuron } =
      (.ok [score_event [] 7],
       { store := { log := [score_event [] 7], fail_from := none },
         network := c10_witness_handler.network.apply (score_event [] 7) }) :=
  C10_unfiltered_targets.2 c10_witness_handler 7 rfl rfl rfl
    (by show (List.filter _ []).length + 1 < 2 ^ 52; norm_num)

/-! Helper lemmas about the store and the append-then-apply discipline. -/

theorem store_append_some {ε : Type} (s : Store ε) (e : ε) (s' : Store ε)
    (h : s.append e = some s') : s'.log = s.log ++ [e] ∧ s'.fail_from = s.fail_from := by
  rw [Store.append] at h
  split at h
  · injection h with h
    rw [← h]
    exact ⟨rfl, rfl⟩
  · split at h
    · injection h with h
      rw [← h]
      exact ⟨rfl, rfl⟩
    · exact absurd h (by simp)

/-- Applying any `SynapseCreated` event leaves the neuron set unchanged. -/
theorem apply_synapse_created_neurons (net : Network) (id f t : Uuid) (w : ℚ) :
    (net.apply (.SynapseCreated id f t w)).neurons = net.neurons := by
  simp only [Network.apply]
  split <;> rfl

/-- The attach loop of the add-random-neuron handler appends each derived
event before applying it: the final log extends the initial one by the
derived events and the final network is the initial one with exactly those
events applied. -/
theorem attach_loop_sync (o : NeuronOracle) (nid : Uuid) :
    ∀ (targets : List Uuid) (i : Nat) (store : Store Event) (net : Network),
    ∃ evs, (attach_loop o nid targets i (store, net)).2.1.log = store.log ++ evs ∧
      (attach_loop o nid targets i (store, net)).2.2 = evs.foldl Network.apply net := by
  intro targets
  induction targets with
  | nil =>
    intro i store net
    exact ⟨[], by simp [attach_loop], by simp [attach_loop]⟩
  | cons t rest ih =>
    intro i store net
    simp only [attach_loop]
    rcases happ : store.append (if o.dir i then
        Event.SynapseCreated (o.synapse_ids i) t nid (o.edge_weight i)
      else Event.SynapseCreated (o.synapse_ids i) nid t (o.edge_weight i)) with _ | store'
    · exact ⟨[], by simp, by simp⟩
    · obtain ⟨evs, hlog, hnet⟩ := ih (i + 1) store'
        (net.apply (if o.dir i then
          Event.SynapseCreated (o.synapse_ids i) t nid (o.edge_weight i)
        else Event.SynapseCreated (o.synapse_ids i) nid t (o.edge_weight i)))
      refine ⟨(if o.dir i then
          Event.SynapseCreated (o.synapse_ids i) t nid (o.edge_weight i)
        else Event.SynapseCreated (o.synapse_ids i) nid t (o.edge_weight i)) :: evs, ?_, ?_⟩
      · rw [hlog, (store_append_some _ _ _ happ).1]
        simp
      · rw [hnet]
        simp [List.foldl_cons]

/-- The per-target recalculation loop appends each emitted event before
applying it. -/
theorem recalc_loop_sync (events : List Event) :
    ∀ (ids : List Uuid) (h : RecalculateCuriosityScoreHandler),
    ∃ evs, (recalc_loop events ids h).2.store.log = h.store.log ++ evs ∧
      (recalc_loop events ids h).2.network = evs.foldl Network.apply h.network := by
  intro ids
  induction ids with
  | nil =>
    intro h
    exact ⟨[], by simp [recalc_loop], by simp [recalc_loop]⟩
  | cons id rest ih =>
    intro h
    simp only [recalc_loop]
    split
    · split
      · exact ⟨[], by simp, rfl⟩
      · rename_i store' happ
        obtain ⟨evs', hlog, hnet⟩ := ih ⟨store', h.network.apply (Event.CuriosityScoreUpdated ⟨id, stored_score h.network id, compute_score events id⟩)⟩
        refine ⟨Event.CuriosityScoreUpdated ⟨id, stored_score h.network id, compute_score events id⟩ :: evs', ?_, ?_⟩
        · rw [hlog, (store_append_some _ _ _ happ).1]
          simp
        · rw [hnet]
          simp [List.foldl_cons]
    · exact ih h


theorem set_synapse_weight_sync (h : SetSynapseWeightHandler) (cmd : SetSynapseWeightCommand) :
    ∃ evs, (h.handle cmd).2.store.log = h.store.log ++ evs ∧
      (h.handle cmd).2.network = evs.foldl Network.apply h.network := by
  simp only [SetSynapseWeightHandler.handle]
  split
  · exact ⟨[], by simp, rfl⟩
  · rename_i s hfind
    split
    · exact ⟨[], by simp, rfl⟩
    · rename_i store' happ
      refine ⟨[Event.SynapseWeightSet ⟨cmd.synapse_id, s.weight, cmd.new_weight⟩], ?_, rfl⟩
      simp [(store_append_some _ _ _ happ).1]

theorem add_random_synapse_sync (h : AddRandomSynapseHandler) (o : SynapseOracle) :
    ∃ evs, (h.handle o).2.store.log = h.store.log ++ evs ∧
      (h.handle o).2.network = evs.foldl Network.apply h.network := by
  simp only [AddRandomSynapseHandler.handle]
  split
  · exact ⟨[], by simp, rfl⟩
  · split
    · exact ⟨[], by simp, rfl⟩
    · rename_i f t hget
      split
      · exact ⟨[], by simp, rfl⟩
      · rename_i store' happ
        refine ⟨[Event.RandomSynapseAdded ⟨o.synapse_id, f, t, o.weight⟩], ?_, rfl⟩
        simp [(store_append_some _ _ _ happ).1]

theorem mutate_random_synapse_weight_sync (h : MutateRandomSynapseWeightHandler)
    (o : MutateOracle) (cmd : MutateRandomSynapseWeightCommand) :
    ∃ evs, (h.handle o cmd).2.store.log = h.store.log ++ evs ∧
      (h.handle o cmd).2.network = evs.foldl Network.apply h.network := by
  simp only [MutateRandomSynapseWeightHandler.handle]
  split
  · exact ⟨[], by simp, rfl⟩
  · split
    · exact ⟨[], by simp, rfl⟩
    · split
      · exact ⟨[], by simp, rfl⟩
      · rename_i store' happ
        refine ⟨[_], (store_append_some _ _ _ happ).1, ?_⟩
        rfl

theorem add_random_neuron_sync (h : AddRandomNeuronHandler) (o : NeuronOracle) :
    ∃ evs, (h.handle o).2.store.log = h.store.log ++ evs ∧
      (h.handle o).2.network = evs.foldl Network.apply h.network := by
  simp only [AddRandomNeuronHandler.handle]
  split
  · exact ⟨[], by simp, rfl⟩
  · rename_i store1 happ
    split
    · refine ⟨[_], (store_append_some _ _ _ happ).1, ?_⟩
      rfl
    · obtain ⟨evs, hlog, hnet⟩ := attach_loop_sync o o.neuron_id _ 0 store1 _
      refine ⟨Event.RandomNeuronAdded ⟨o.neuron_id, [Activation.Identity, Activation.Sigmoid, Activation.ReLU, Activation.Tanh].getD (o.activation_choice % [Activation.Identity, Activation.Sigmoid, Activation.ReLU, Activation.Tanh].length) Activation.Identity⟩ :: evs, ?_, ?_⟩
      · rw [hlog, (store_append_some _ _ _ happ).1]
        simp
      · rw [hnet]
        simp [List.foldl_cons]

theorem recalculate_sync (h : RecalculateCuriosityScoreHandler)
    (cmd : RecalculateCuriosityScoreCommand) :
    ∃ evs, (h.handle cmd).2.store.log = h.store.log ++ evs ∧
      (h.handle cmd).2.network = evs.foldl Network.apply h.network := by
  simp only [RecalculateCuriosityScoreHandler.handle]
  exact recalc_loop_sync h.store.log (resolve_targets h cmd) h

theorem prune_lowest_sync (h1 h2 : AddMemoryEntryHandler) (hp : h1.prune_lowest = some h2) :
    ∃ e, h2.store.log = h1.store.log ++ [e] ∧ h2.memory = h1.memory.apply e := by
  simp only [AddMemoryEntryHandler.prune_lowest] at hp
  split at hp
  · exact absurd hp (by simp)
  · rename_i store2 happ2
    injection hp with hp
    refine ⟨MemoryEvent.MemoryPruned ⟨((sort_by_score h1.memory.entries).take (h1.memory.entries.length - h1.memory.max_size)).map (·.id)⟩, ?_, ?_⟩
    · rw [← hp]
      exact (store_append_some _ _ _ happ2).1
    · rw [← hp]

theorem add_memory_entry_sync (h : AddMemoryEntryHandler) (o : AddEntryOracle)
    (cmd : AddMemoryEntryCommand) :
    ∃ evs, (h.handle o cmd).2.store.log = h.store.log ++ evs ∧
      (h.handle o cmd).2.memory = evs.foldl AdaptiveMemory.apply h.memory := by
  simp only [AddMemoryEntryHandler.handle]
  split
  · exact ⟨[], by simp, rfl⟩
  · split
    · exact ⟨[], by simp, rfl⟩
    · rename_i store' happ
      split
      · split
        · rename_i hprune
          refine ⟨[_], (store_append_some _ _ _ happ).1, ?_⟩
          rfl
        · rename_i h2 hprune
          obtain ⟨e2, hl2, hm2⟩ := prune_lowest_sync _ _ hprune
          refine ⟨[MemoryEvent.MemoryEntryAdded ⟨⟨o.entry_id, o.timestamp, cmd.event_type, cmd.payload, cmd.score⟩⟩, e2], ?_, ?_⟩
          · show h2.store.log = _
            rw [hl2]
            show store'.log ++ [e2] = _
            rw [(store_append_some _ _ _ happ).1]
            simp
          · show h2.memory = _
            rw [hm2]
            rfl
      · refine ⟨[_], (store_append_some _ _ _ happ).1, ?_⟩
        rfl

theorem remove_memory_entry_sync (h : RemoveMemoryEntryHandler)
    (cmd : RemoveMemoryEntryCommand) :
    ∃ evs, (h.handle cmd).2.store.log = h.store.log ++ evs ∧
      (h.handle cmd).2.memory = evs.foldl AdaptiveMemory.apply h.memory := by
  simp only [RemoveMemoryEntryHandler.handle]
  split
  · exact ⟨[], by simp, rfl⟩
  · split
    · exact ⟨[], by simp, rfl⟩
    · rename_i store' happ
      refine ⟨[_], (store_append_some _ _ _ happ).1, ?_⟩
      rfl

theorem prune_memory_sync (h : PruneMemoryHandler) :
    ∃ evs, h.handle.2.store.log = h.store.log ++ evs ∧
      h.handle.2.memory = evs.foldl AdaptiveMemory.apply h.memory := by
  simp only [PruneMemoryHandler.handle]
  split
  · exact ⟨[], by simp, rfl⟩
  · split
    · exact ⟨[], by simp, rfl⟩
    · rename_i store' happ
      refine ⟨[_], (store_append_some _ _ _ happ).1, ?_⟩
      rfl

theorem update_memory_score_sync (h : UpdateMemoryScoreHandler)
    (cmd : UpdateMemoryScoreCommand) :
    ∃ evs, (h.handle cmd).2.store.log = h.store.log ++ evs ∧
      (h.handle cmd).2.memory = evs.foldl AdaptiveMemory.apply h.memory := by
  simp only [UpdateMemoryScoreHandler.handle]
  split
  · exact ⟨[], by simp, rfl⟩
  · split
    · exact ⟨[], by simp, rfl⟩
    · rename_i entry hfind
      split
      · exact ⟨[], by simp, rfl⟩
      · rename_i store' happ
        refine ⟨[_], (store_append_some _ _ _ happ).1, ?_⟩
        rfl


/-- Seed event for the C9 counterexample. -/
def c9_seed : Event := .RandomNeuronAdded { neuron_id := 0, activation := .Identity }

/-- C9 counterexample fixture: a handler over a one-event log whose store
accepts exactly one more append before failing. -/
def c9_handler : AddRandomNeuronHandler :=
  { store := { log := [c9_seed], fail_from := some 2 },
    network := Network.hydrate [c9_seed] }

/-- C9 counterexample oracle: attach one edge toward the existing neuron. -/
def c9_oracle : NeuronOracle :=
  { activation_choice := 0, neuron_id := 1, count_choice := 0, shuffled := [0],
    dir := fun _ => true, edge_weight := fun _ => 0, synapse_ids := fun i => 100 + i }

/-- Counterexample to C9 as stated: the claim says a command either fully
completes or fails with no event appended.  Here the add-random-neuron
handler, against a store that accepts exactly one more record, durably
appends (and applies) the `RandomNeuronAdded` event, then fails with a
storage error on the first attached-edge append — the command fails with
one event appended. -/
theorem C9_partial_append_counterexample :
    (c9_handler.handle c9_oracle).1 = .error .StorageError ∧
    (c9_handler.handle c9_oracle).2.store.log =
      [c9_seed, .RandomNeuronAdded { neuron_id := 1, activation := .Identity }] ∧
    c9_handler.store.log = [c9_seed] := by
  refine ⟨rfl, rfl, rfl⟩

/-- C9 (amended): every command handler either fully completes or fails
having durably appended only a prefix of the events it derives; in every
case — success or failure — the final in-memory aggregate equals the
initial one with exactly the newly appended events applied, because each
append precedes the corresponding apply, so the aggregate never applies an
event that is not in the durable log. -/
theorem C9_memory_never_ahead :
    (∀ (h : SetSynapseWeightHandler) (cmd : SetSynapseWeightCommand),
      ∃ evs, (h.handle cmd).2.store.log = h.store.log ++ evs ∧
        (h.handle cmd).2.network = evs.foldl Network.apply h.network) ∧
    (∀ (h : AddRandomSynapseHandler) (o : SynapseOracle),
      ∃ evs, (h.handle o).2.store.log = h.store.log ++ evs ∧
        (h.handle o).2.network = evs.foldl Network.apply h.network) ∧
    (∀ (h : AddRandomNeuronHandler) (o : NeuronOracle),
      ∃ evs, (h.handle o).2.store.log = h.store.log ++ evs ∧
        (h.handle o).2.network = evs.foldl Network.apply h.network) ∧
    (∀ (h : MutateRandomSynapseWeightHandler) (o : MutateOracle)
        (cmd : MutateRandomSynapseWeightCommand),
      ∃ evs, (h.handle o cmd).2.store.log = h.store.log ++ evs ∧
        (h.handle o cmd).2.network = evs.foldl Network.apply h.network) ∧
    (∀ (h : RecalculateCuriosityScoreHandler) (cmd : RecalculateCuriosityScoreCommand),
      ∃ evs, (h.handle cmd).2.store.log = h.store.log ++ evs ∧
        (h.handle cmd).2.network = evs.foldl Network.apply h.network) ∧
    (∀ (h : AddMemoryEntryHandler) (o : AddEntryOracle) (cmd : AddMemoryEntryCommand),
      ∃ evs, (h.handle o cmd).2.store.log = h.store.log ++ evs ∧
        (h.handle o cmd).2.memory = evs.foldl AdaptiveMemory.apply h.memory) ∧
    (∀ (h : RemoveMemoryEntryHandler) (cmd : RemoveMemoryEntryCommand),
      ∃ evs, (h.handle cmd).2.store.log = h.store.log ++ evs ∧
        (h.handle cmd).2.memory = evs.foldl AdaptiveMemory.apply h.memory) ∧
    (∀ (h : PruneMemoryHandler),
      ∃ evs, h.handle.2.store.log = h.store.log ++ evs ∧
        h.handle.2.memory = evs.foldl AdaptiveMemory.apply h.memory) ∧
    (∀ (h : UpdateMemoryScoreHandler) (cmd : UpdateMemoryScoreCommand),
      ∃ evs, (h.handle cmd).2.store.log = h.store.log ++ evs ∧
        (h.handle cmd).2.memory = evs.foldl AdaptiveMemory.apply h.memory) :=
  ⟨set_synapse_weight_sync, add_random_synapse_sync, add_random_neuron_sync,
    mutate_random_synapse_weight_sync, recalculate_sync, add_memory_entry_sync,
    remove_memory_entry_sync, prune_memory_sync, update_memory_score_sync⟩

/-- Inserting a neuron whose id is fresh appends it. -/
theorem insert_neuron_fresh (n : Neuron) (l : List Neuron) (hf : n.id ∉ l.map (·.id)) :
    insert_neuron n l = l ++ [n] := by
  rw [insert_neuron, List.filter_eq_self.mpr]
  intro m hm
  simp only [bne_iff_ne, ne_eq]
  intro he
  exact hf (he ▸ List.mem_map_of_mem (·.id) hm)

/-- A `SynapseCreated` event with both endpoints present inserts its
synapse. -/
theorem apply_synapse_created_of_present (net : Network) (sid a b : Uuid) (w : ℚ)
    (ha : net.neurons.any (fun n => n.id == a) = true)
    (hb : net.neurons.any (fun n => n.id == b) = true) :
    (net.apply (.SynapseCreated sid a b w)).synapses =
      insert_synapse (Synapse.with_id sid a b w) net.synapses := by
  simp only [Network.apply, ha, hb]
  rfl

/-- Specification of the attach loop: with a fault-free store and all
targets (and the new neuron) present, the loop succeeds, leaves the neuron
set unchanged, appends exactly one `SynapseCreated` event per target
connecting the new neuron with that target in one direction or the other,
and — if there is at least one target — leaves the new neuron with an
incident synapse. -/
theorem attach_loop_spec (o : NeuronOracle) (nid : Uuid) :
    ∀ (targets : List Uuid) (i : Nat) (store : Store Event) (net : Network),
    store.fail_from = none →
    net.neurons.any (fun n => n.id == nid) = true →
    (∀ t ∈ targets, net.neurons.any (fun n => n.id == t) = true) →
    (attach_loop o nid targets i (store, net)).1 = .ok nid ∧
    (attach_loop o nid targets i (store, net)).2.2.neurons = net.neurons ∧
    ∃ evs, (attach_loop o nid targets i (store, net)).2.1.log = store.log ++ evs ∧
      List.Forall₂ (fun e t => ∃ sid w, e = Event.SynapseCreated sid t nid w ∨
        e = Event.SynapseCreated sid nid t w) evs targets ∧
      (targets ≠ [] → ∃ s ∈ (attach_loop o nid targets i (store, net)).2.2.synapses,
        s.from_ = nid ∨ s.to_ = nid) := by
  intro targets
  induction targets with
  | nil =>
    intro i store net hfail hnid htargets
    refine ⟨rfl, rfl, [], by simp [attach_loop], List.Forall₂.nil, by simp⟩
  | cons t rest ih =>
    intro i store net hfail hnid htargets
    have ht : net.neurons.any (fun n => n.id == t) = true := htargets t (by simp)
    by_cases hd : o.dir i
    · have happ : store.append (Event.SynapseCreated (o.synapse_ids i) t nid (o.edge_weight i)) =
          some { log := store.log ++ [Event.SynapseCreated (o.synapse_ids i) t nid (o.edge_weight i)], fail_from := none } := by
        rw [Store.append, hfail]
      have hneur : (net.apply (.SynapseCreated (o.synapse_ids i) t nid (o.edge_weight i))).neurons
          = net.neurons := apply_synapse_created_neurons net _ _ _ _
      have hsyn := apply_synapse_created_of_present net (o.synapse_ids i) t nid
        (o.edge_weight i) ht hnid
      simp only [attach_loop, hd, if_true, happ]
      obtain ⟨hok', hneur', evs, hlog, hfa, hinc⟩ := ih (i + 1)
        { log := store.log ++ [Event.SynapseCreated (o.synapse_ids i) t nid (o.edge_weight i)], fail_from := none }
        (net.apply (.SynapseCreated (o.synapse_ids i) t nid (o.edge_weight i)))
        rfl (by rw [hneur]; exact hnid)
        (fun t' ht' => by rw [hneur]; exact htargets t' (by simp [ht']))
      refine ⟨hok', by rw [hneur', hneur],
        Event.SynapseCreated (o.synapse_ids i) t nid (o.edge_weight i) :: evs,
        by rw [hlog]; simp, List.Forall₂.cons ⟨o.synapse_ids i, o.edge_weight i, Or.inl rfl⟩ hfa,
        ?_⟩
      intro hne
      rcases List.eq_nil_or_concat rest with hrest | _
      · subst hrest
        refine ⟨Synapse.with_id (o.synapse_ids i) t nid (o.edge_weight i), ?_, Or.inr rfl⟩
        simp only [attach_loop]
        rw [hsyn, insert_synapse]
        simp
      · rename_i hrest
        have hrestne : rest ≠ [] := by
          rcases hrest with ⟨l, a, rfl⟩
          simp
        obtain ⟨s, hs, hsinc⟩ := hinc hrestne
        exact ⟨s, hs, hsinc⟩
    · have happ : store.append (Event.SynapseCreated (o.synapse_ids i) nid t (o.edge_weight i)) =
          some { log := store.log ++ [Event.SynapseCreated (o.synapse_ids i) nid t (o.edge_weight i)], fail_from := none } := by
        rw [Store.append, hfail]
      have hneur : (net.apply (.SynapseCreated (o.synapse_ids i) nid t (o.edge_weight i))).neurons
          = net.neurons := apply_synapse_created_neurons net _ _ _ _
      have hsyn := apply_synapse_created_of_present net (o.synapse_ids i) nid t
        (o.edge_weight i) hnid ht
      simp only [attach_loop, hd, if_false, Bool.false_eq_true, happ]
      obtain ⟨hok', hneur', evs, hlog, hfa, hinc⟩ := ih (i + 1)
        { log := store.log ++ [Event.SynapseCreated (o.synapse_ids i) nid t (o.edge_weight i)], fail_from := none }
        (net.apply (.SynapseCreated (o.synapse_ids i) nid t (o.edge_weight i)))
        rfl (by rw [hneur]; exact hnid)
        (fun t' ht' => by rw [hneur]; exact htargets t' (by simp [ht']))
      refine ⟨hok', by rw [hneur', hneur],
        Event.SynapseCreated (o.synapse_ids i) nid t (o.edge_weight i) :: evs,
        by rw [hlog]; simp, List.Forall₂.cons ⟨o.synapse_ids i, o.edge_weight i, Or.inr rfl⟩ hfa,
        ?_⟩
      intro hne
      rcases List.eq_nil_or_concat rest with hrest | _
      · subst hrest
        refine ⟨Synapse.with_id (o.synapse_ids i) nid t (o.edge_weight i), ?_, Or.inl rfl⟩
        simp only [attach_loop]
        rw [hsyn, insert_synapse]
        simp
      · rename_i hrest
        have hrestne : rest ≠ [] := by
          rcases hrest with ⟨l, a, rfl⟩
          simp
        obtain ⟨s, hs, hsinc⟩ := hinc hrestne
        exact ⟨s, hs, hsinc⟩


/-- C8: with a fault-free store, a fresh neuron id, duplicate-free neuron
ids and a genuine shuffle (a permutation of the candidate ids), a successful
add-random-node command adds the new node; on an empty network it attaches
no edges, and on a non-empty network it emits between 1 and N edge-creation
events (N = number of other nodes), each connecting the new node with a
distinct existing node in one direction or the other, all appended after
the node-creation event — and afterwards the new node has at least one
incident synapse. -/
theorem C8_new_node_not_isolated :
    ∀ (h : AddRandomNeuronHandler) (o : NeuronOracle),
    h.store.ok →
    o.neuron_id ∉ h.network.neurons.map (·.id) →
    (h.network.neurons.map (·.id)).Nodup →
    o.shuffled.Perm (h.network.neurons.map (·.id)) →
    (h.handle o).1 = .ok o.neuron_id ∧
    o.neuron_id ∈ (h.handle o).2.network.neurons.map (·.id) ∧
    (h.network.neurons = [] → (h.handle o).2.network.synapses = h.network.synapses) ∧
    (h.network.neurons ≠ [] →
      ∃ evs ts, 1 ≤ evs.length ∧ evs.length ≤ h.network.neurons.length ∧
        ts.Nodup ∧ (∀ t ∈ ts, t ∈ h.network.neurons.map (·.id)) ∧
        List.Forall₂ (fun e t => ∃ sid w, e = Event.SynapseCreated sid t o.neuron_id w ∨
          e = Event.SynapseCreated sid o.neuron_id t w) evs ts ∧
        (∃ act, (h.handle o).2.store.log =
          h.store.log ++ Event.RandomNeuronAdded ⟨o.neuron_id, act⟩ :: evs) ∧
        ∃ s ∈ (h.handle o).2.network.synapses,
          s.from_ = o.neuron_id ∨ s.to_ = o.neuron_id) := by
  intro h o hok hfresh hnodup hperm
  have hok' : h.store.fail_from = none := hok
  have happ1 : h.store.append (Event.RandomNeuronAdded ⟨o.neuron_id, [Activation.Identity, Activation.Sigmoid, Activation.ReLU, Activation.Tanh].getD (o.activation_choice % [Activation.Identity, Activation.Sigmoid, Activation.ReLU, Activation.Tanh].length) Activation.Identity⟩) = some { log := h.store.log ++ [Event.RandomNeuronAdded ⟨o.neuron_id, [Activation.Identity, Activation.Sigmoid, Activation.ReLU, Activation.Tanh].getD (o.activation_choice % [Activation.Identity, Activation.Sigmoid, Activation.ReLU, Activation.Tanh].length) Activation.Identity⟩], fail_from := none } := by
    rw [Store.append, hok']
  have hneur1 : (h.network.apply (Event.RandomNeuronAdded ⟨o.neuron_id, [Activation.Identity, Activation.Sigmoid, Activation.ReLU, Activation.Tanh].getD (o.activation_choice % [Activation.Identity, Activation.Sigmoid, Activation.ReLU, Activation.Tanh].length) Activation.Identity⟩)).neurons = h.network.neurons ++ [Neuron.with_id o.neuron_id ([Activation.Identity, Activation.Sigmoid, Activation.ReLU, Activation.Tanh].getD (o.activation_choice % [Activation.Identity, Activation.Sigmoid, Activation.ReLU, Activation.Tanh].length) Activation.Identity)] := by
    simp only [Network.apply, Network.apply_random_neuron_added]
    exact insert_neuron_fresh _ _ hfresh
  have hsyn1 : (h.network.apply (Event.RandomNeuronAdded ⟨o.neuron_id, [Activation.Identity, Activation.Sigmoid, Activation.ReLU, Activation.Tanh].getD (o.activation_choice % [Activation.Identity, Activation.Sigmoid, Activation.ReLU, Activation.Tanh].length) Activation.Identity⟩)).synapses = h.network.synapses := rfl
  have hothers : ((h.network.apply (Event.RandomNeuronAdded ⟨o.neuron_id, [Activation.Identity, Activation.Sigmoid, Activation.ReLU, Activation.Tanh].getD (o.activation_choice % [Activation.Identity, Activation.Sigmoid, Activation.ReLU, Activation.Tanh].length) Activation.Identity⟩)).neurons.map (·.id)).filter (fun id => id != o.neuron_id) = h.network.neurons.map (·.id) := by
    rw [hneur1, List.map_append, List.filter_append]
    have h1 : (h.network.neurons.map (·.id)).filter (fun id => id != o.neuron_id) =
        h.network.neurons.map (·.id) := by
      rw [List.filter_eq_self]
      intro x hx
      simp only [bne_iff_ne, ne_eq]
      exact fun he => hfresh (he ▸ hx)
    have h2 : (([Neuron.with_id o.neuron_id ([Activation.Identity, Activation.Sigmoid, Activation.ReLU, Activation.Tanh].getD (o.activation_choice % [Activation.Identity, Activation.Sigmoid, Activation.ReLU, Activation.Tanh].length) Activation.Identity)]).map (·.id)).filter
        (fun id => id != o.neuron_id) = [] := by
      simp [Neuron.with_id]
    rw [h1, h2, List.append_nil]
  simp only [AddRandomNeuronHandler.handle, happ1]
  by_cases hemp : h.network.neurons = []
  · have hisempty : (((h.network.apply (Event.RandomNeuronAdded ⟨o.neuron_id, [Activation.Identity, Activation.Sigmoid, Activation.ReLU, Activation.Tanh].getD (o.activation_choice % [Activation.Identity, Activation.Sigmoid, Activation.ReLU, Activation.Tanh].length) Activation.Identity⟩)).neurons.map (·.id)).filter (fun id => id != o.neuron_id)).isEmpty = true := by
      rw [hothers, hemp]
      rfl
    rw [if_pos hisempty]
    refine ⟨rfl, ?_, fun _ => hsyn1, fun hne => absurd hemp hne⟩
    rw [hneur1]
    simp [Neuron.with_id]
  · have hidsne : h.network.neurons.map (·.id) ≠ [] := by
      intro hc
      exact hemp (List.map_eq_nil_iff.mp hc)
    have hisempty : (((h.network.apply (Event.RandomNeuronAdded ⟨o.neuron_id, [Activation.Identity, Activation.Sigmoid, Activation.ReLU, Activation.Tanh].getD (o.activation_choice % [Activation.Identity, Activation.Sigmoid, Activation.ReLU, Activation.Tanh].length) Activation.Identity⟩)).neurons.map (·.id)).filter (fun id => id != o.neuron_id)).isEmpty = false := by
      rw [hothers]
      rw [List.isEmpty_eq_false]
      exact hidsne
    rw [hisempty]
    simp only [Bool.false_eq_true, if_false]
    have hids_pos : 0 < (h.network.neurons.map (·.id)).length := List.length_pos.mpr hidsne
    have hol : (((h.network.apply (Event.RandomNeuronAdded ⟨o.neuron_id, [Activation.Identity, Activation.Sigmoid, Activation.ReLU, Activation.Tanh].getD (o.activation_choice % [Activation.Identity, Activation.Sigmoid, Activation.ReLU, Activation.Tanh].length) Activation.Identity⟩)).neurons.map (·.id)).filter (fun id => id != o.neuron_id)).length = (h.network.neurons.map (·.id)).length := by rw [hothers]
    have hshuf : o.shuffled.length = (h.network.neurons.map (·.id)).length := hperm.length_eq
    have hmod : o.count_choice % (((h.network.apply (Event.RandomNeuronAdded ⟨o.neuron_id, [Activation.Identity, Activation.Sigmoid, Activation.ReLU, Activation.Tanh].getD (o.activation_choice % [Activation.Identity, Activation.Sigmoid, Activation.ReLU, Activation.Tanh].length) Activation.Identity⟩)).neurons.map (·.id)).filter (fun id => id != o.neuron_id)).length < (((h.network.apply (Event.RandomNeuronAdded ⟨o.neuron_id, [Activation.Identity, Activation.Sigmoid, Activation.ReLU, Activation.Tanh].getD (o.activation_choice % [Activation.Identity, Activation.Sigmoid, Activation.ReLU, Activation.Tanh].length) Activation.Identity⟩)).neurons.map (·.id)).filter (fun id => id != o.neuron_id)).length :=
      Nat.mod_lt _ (hol ▸ hids_pos)
    have hcount_le : (1 + o.count_choice % (((h.network.apply (Event.RandomNeuronAdded ⟨o.neuron_id, [Activation.Identity, Activation.Sigmoid, Activation.ReLU, Activation.Tanh].getD (o.activation_choice % [Activation.Identity, Activation.Sigmoid, Activation.ReLU, Activation.Tanh].length) Activation.Identity⟩)).neurons.map (·.id)).filter (fun id => id != o.neuron_id)).length) ≤ (h.network.neurons.map (·.id)).length := by omega
    have htlen : (o.shuffled.take (1 + o.count_choice % (((h.network.apply (Event.RandomNeuronAdded ⟨o.neuron_id, [Activation.Identity, Activation.Sigmoid, Activation.ReLU, Activation.Tanh].getD (o.activation_choice % [Activation.Identity, Activation.Sigmoid, Activation.ReLU, Activation.Tanh].length) Activation.Identity⟩)).neurons.map (·.id)).filter (fun id => id != o.neuron_id)).length)).length = (1 + o.count_choice % (((h.network.apply (Event.RandomNeuronAdded ⟨o.neuron_id, [Activation.Identity, Activation.Sigmoid, Activation.ReLU, Activation.Tanh].getD (o.activation_choice % [Activation.Identity, Activation.Sigmoid, Activation.ReLU, Activation.Tanh].length) Activation.Identity⟩)).neurons.map (·.id)).filter (fun id => id != o.neuron_id)).length) := by
      rw [List.length_take]
      omega
    have hnidany : (h.network.apply (Event.RandomNeuronAdded ⟨o.neuron_id, [Activation.Identity, Activation.Sigmoid, Activation.ReLU, Activation.Tanh].getD (o.activation_choice % [Activation.Identity, Activation.Sigmoid, Activation.ReLU, Activation.Tanh].length) Activation.Identity⟩)).neurons.any (fun n => n.id == o.neuron_id) = true := by
      rw [hneur1]
      simp [Neuron.with_id]
    have htany : ∀ t ∈ (o.shuffled.take (1 + o.count_choice % (((h.network.apply (Event.RandomNeuronAdded ⟨o.neuron_id, [Activation.Identity, Activation.Sigmoid, Activation.ReLU, Activation.Tanh].getD (o.activation_choice % [Activation.Identity, Activation.Sigmoid, Activation.ReLU, Activation.Tanh].length) Activation.Identity⟩)).neurons.map (·.id)).filter (fun id => id != o.neuron_id)).length)), (h.network.apply (Event.RandomNeuronAdded ⟨o.neuron_id, [Activation.Identity, Activation.Sigmoid, Activation.ReLU, Activation.Tanh].getD (o.activation_choice % [Activation.Identity, Activation.Sigmoid, Activation.ReLU, Activation.Tanh].length) Activation.Identity⟩)).neurons.any (fun n => n.id == t) = true := by
      intro t ht
      have h1 : t ∈ o.shuffled := List.mem_of_mem_take ht
      have h2 : t ∈ h.network.neurons.map (·.id) := hperm.mem_iff.mp h1
      rw [hneur1]
      simp only [List.any_eq_true, beq_iff_eq]
      obtain ⟨n, hn, hn2⟩ := List.mem_map.mp h2
      exact ⟨n, List.mem_append_left _ hn, hn2⟩
    obtain ⟨hok2, hneur2, evs, hlog2, hfa, hinc⟩ := attach_loop_spec o o.neuron_id
      (o.shuffled.take (1 + o.count_choice % (((h.network.apply (Event.RandomNeuronAdded ⟨o.neuron_id, [Activation.Identity, Activation.Sigmoid, Activation.ReLU, Activation.Tanh].getD (o.activation_choice % [Activation.Identity, Activation.Sigmoid, Activation.ReLU, Activation.Tanh].length) Activation.Identity⟩)).neurons.map (·.id)).filter (fun id => id != o.neuron_id)).length)) 0 ({ log := h.store.log ++ [Event.RandomNeuronAdded ⟨o.neuron_id, [Activation.Identity, Activation.Sigmoid, Activation.ReLU, Activation.Tanh].getD (o.activation_choice % [Activation.Identity, Activation.Sigmoid, Activation.ReLU, Activation.Tanh].length) Activation.Identity⟩], fail_from := none }) (h.network.apply (Event.RandomNeuronAdded ⟨o.neuron_id, [Activation.Identity, Activation.Sigmoid, Activation.ReLU, Activation.Tanh].getD (o.activation_choice % [Activation.Identity, Activation.Sigmoid, Activation.ReLU, Activation.Tanh].length) Activation.Identity⟩)) rfl hnidany htany
    have hevslen : evs.length = (o.shuffled.take (1 + o.count_choice % (((h.network.apply (Event.RandomNeuronAdded ⟨o.neuron_id, [Activation.Identity, Activation.Sigmoid, Activation.ReLU, Activation.Tanh].getD (o.activation_choice % [Activation.Identity, Activation.Sigmoid, Activation.ReLU, Activation.Tanh].length) Activation.Identity⟩)).neurons.map (·.id)).filter (fun id => id != o.neuron_id)).length)).length := hfa.length_eq
    refine ⟨hok2, ?_, fun hc => absurd hc hemp, fun _ => ?_⟩
    · rw [hneur2, hneur1]
      simp [Neuron.with_id]
    · refine ⟨evs, (o.shuffled.take (1 + o.count_choice % (((h.network.apply (Event.RandomNeuronAdded ⟨o.neuron_id, [Activation.Identity, Activation.Sigmoid, Activation.ReLU, Activation.Tanh].getD (o.activation_choice % [Activation.Identity, Activation.Sigmoid, Activation.ReLU, Activation.Tanh].length) Activation.Identity⟩)).neurons.map (·.id)).filter (fun id => id != o.neuron_id)).length)), by omega, ?_, ?_, ?_, hfa, ⟨([Activation.Identity, Activation.Sigmoid, Activation.ReLU, Activation.Tanh].getD (o.activation_choice % [Activation.Identity, Activation.Sigmoid, Activation.ReLU, Activation.Tanh].length) Activation.Identity), ?_⟩, ?_⟩
      · rw [List.length_map] at hcount_le
        omega
      · exact ((List.take_sublist _ _).nodup (hperm.symm.nodup hnodup))
      · intro t ht
        exact hperm.mem_iff.mp (List.mem_of_mem_take ht)
      · rw [hlog2]
        simp
      · refine hinc ?_
        intro hc
        rw [hc] at htlen
        simp at htlen
        omega


/-- Fixture for the C8 witness: a one-neuron network and a fault-free
store. -/
def c8_handler : AddRandomNeuronHandler :=
  { store := { log := [], fail_from := none },
    network := { neurons := [Neuron.with_id 0 .Identity], synapses := [] } }

/-- Fixture for the C8 witness: attach one edge toward neuron 0. -/
def c8_oracle : NeuronOracle :=
  { activation_choice := 0, neuron_id := 1, count_choice := 0, shuffled := [0],
    dir := fun _ => true, edge_weight := fun _ => 0, synapse_ids := fun _ => 50 }

/-- Witness for C8: the concrete run succeeds with the new neuron's id. -/
theorem C8_new_node_not_isolated_witness :
    (c8_handler.handle c8_oracle).1 = .ok 1 :=
  (C8_new_node_not_isolated c8_handler c8_oracle rfl (by decide) (by decide)
    (by rw [show c8_handler.network.neurons.map (·.id) = [0] from rfl]
        exact List.Perm.refl [0])).1

end AEI
